import Mathlib

/-!
Verification of the DataFrame transformation helpers in
`src/jupyter/notebook/user_functions.py`.

The underlying engine's tabular dataset (a PySpark DataFrame) is embedded
shallowly: a `DataFrame` is a list of column names together with a list of
rows, each row a list of `Value` cells aligned positionally with the columns.
Engine primitives used by the source (`withColumn`, `filter`, `drop`,
`select`/`alias`, `regexp_replace`, casts, `when`/`otherwise`, the
`row_number` window function, CSV writing) are translated into Lean
functions on this model.  Window-function tie order, which the engine
leaves unspecified for equal order keys, is resolved here by row position
(a stable tie-break), matching one legal engine behaviour.
-/

/-- A cell of the tabular dataset: string, integer, double (modelled as an
exact rational) or SQL NULL. -/
inductive Value where
  | vStr (s : String)
  | vInt (n : Int)
  | vDbl (q : ℚ)
  | vNull
  deriving DecidableEq

/-- The engine's implicit value-to-string conversion (used by string
operators applied to non-string columns); NULL has no string form. -/
def valueToStr? : Value → Option String
  | .vStr s => some s
  | .vInt n => some (toString n)
  | .vDbl q => some (toString q)
  | .vNull => none

/-- Index of the first column with the given name, if any
(the engine's column-name resolution). -/
def colIdx? (cols : List String) (c : String) : Option Nat :=
  match cols with
  | [] => none
  | c' :: rest => if c' = c then some 0 else (colIdx? rest c).map (· + 1)

/-- The tabular dataset: named columns and positionally aligned rows. -/
structure DataFrame where
  columns : List String
  rows : List (List Value)
  deriving DecidableEq

/-- Reading the cell of a row at a named column; unresolvable columns and
short rows read as NULL. -/
def getCell (cols : List String) (r : List Value) (c : String) : Value :=
  match colIdx? cols c with
  | some j => r.getD j .vNull
  | none => .vNull

/-- Row at position `i` (defaulting to the empty row out of range). -/
def rowAt (df : DataFrame) (i : Nat) : List Value :=
  df.rows.getD i []

/-- The engine's `withColumn`: replaces the named column in place when it
exists, otherwise appends it at the end; the new cell is computed from the
schema and the old row. -/
def DataFrame.withColumn (df : DataFrame) (name : String)
    (e : List String → List Value → Value) : DataFrame :=
  match colIdx? df.columns name with
  | some j => ⟨df.columns, df.rows.map (fun r => r.set j (e df.columns r))⟩
  | none => ⟨df.columns ++ [name], df.rows.map (fun r => r ++ [e df.columns r])⟩

/-- `withColumn` with one precomputed value per row (used for window
functions, whose value depends on the whole dataset, not just the row). -/
def DataFrame.withColumnVals (df : DataFrame) (name : String)
    (vals : List Value) : DataFrame :=
  match colIdx? df.columns name with
  | some j => ⟨df.columns, List.zipWith (fun r v => r.set j v) df.rows vals⟩
  | none => ⟨df.columns ++ [name], List.zipWith (fun r v => r ++ [v]) df.rows vals⟩

/-- The engine's `filter`: keeps the rows satisfying the predicate. -/
def DataFrame.filterRows (df : DataFrame)
    (p : List String → List Value → Bool) : DataFrame :=
  ⟨df.columns, df.rows.filter (p df.columns)⟩

/-- The engine's `drop` of one column: removes the first column of that
name (and the corresponding cell of every row); no-op when absent. -/
def DataFrame.dropCol (df : DataFrame) (c : String) : DataFrame :=
  match colIdx? df.columns c with
  | some j => ⟨df.columns.eraseIdx j, df.rows.map (fun r => r.eraseIdx j)⟩
  | none => df

/-- Well-formedness: every row has exactly one cell per column. -/
def DataFrame.WF (df : DataFrame) : Prop :=
  ∀ r ∈ df.rows, r.length = df.columns.length

/-- A Python argument that may or may not be a DataFrame (for the
`isinstance` check of `col_rename_with_mapping`). -/
inductive PyObj where
  | df (d : DataFrame)
  | nonDf
  deriving DecidableEq

/-- First value bound to a key in an association list, or the default
(Python's `dict.get(c, c)` over the parsed mapping JSON). -/
def mapGetD (m : List (String × String)) (c : String) (dflt : String) : String :=
  match m with
  | [] => dflt
  | (k, v) :: rest => if k = c then v else mapGetD rest c dflt

/-- `col_rename_with_mapping`: raises `TypeError` unless the input is a
DataFrame; otherwise selects every column aliased through the mapping
(`df.select([col(c).alias(col_mapping.get(c, c)) for c in df.columns])`).
The mapping is taken already parsed from its JSON file. -/
def col_rename_with_mapping (x : PyObj) (col_mapping : List (String × String)) :
    Except String DataFrame :=
  match x with
  | .df d => .ok ⟨d.columns.map (fun c => mapGetD col_mapping c c), d.rows⟩
  | .nonDf => .error "TypeError"

/-- The allow-list of the regex `[^a-zA-Z0-9, -]` used by
`remove_special_characters`: ASCII letters, digits, comma, space, hyphen. -/
def allowedChar (ch : Char) : Bool :=
  (decide ('a' ≤ ch) && decide (ch ≤ 'z')) ||
  (decide ('A' ≤ ch) && decide (ch ≤ 'Z')) ||
  ch.isDigit || decide (ch = ',') || decide (ch = ' ') || decide (ch = '-')

/-- `remove_special_characters`: in the named column,
`regexp_replace(col, "[^a-zA-Z0-9, -]", "")` deletes every character
outside the allow-list (non-string cells are first converted to their
string form; NULL stays NULL). -/
def remove_special_characters (df : DataFrame) (column_name : String) : DataFrame :=
  df.withColumn column_name (fun cs r =>
    match valueToStr? (getCell cs r column_name) with
    | some s => .vStr (String.mk (s.toList.filter allowedChar))
    | none => .vNull)

/-- Numeric value of a non-empty all-digit character list (the engine's
string-to-number parsing core). -/
def toNatDigits? (l : List Char) : Option Nat :=
  if l = [] then none
  else if l.all Char.isDigit then
    some (l.foldl (fun acc c => acc * 10 + (c.toNat - 48)) 0)
  else none

/-- The engine's cast of a string to a 32-bit integer: the numeric value
when the string is a valid in-range integer literal, NULL otherwise.
(As used in this code the string was already stripped to digits only,
so signs and spaces need no treatment.) -/
def castStrToInt (s : String) : Value :=
  match toNatDigits? s.toList with
  | some n => if n < 2 ^ 31 then .vInt n else .vNull
  | none => .vNull

/-- Splitting a character list at every dot (for decimal-literal parsing). -/
def splitDot : List Char → List (List Char)
  | [] => [[]]
  | c :: rest =>
    if c = '.' then [] :: splitDot rest
    else
      match splitDot rest with
      | [] => [[c]]
      | h :: t => (c :: h) :: t

/-- Parse a decimal literal made of digits and at most one dot. -/
def parseDec (s : String) : Option ℚ :=
  match splitDot s.toList with
  | [w] => (toNatDigits? w).map (fun n => (n : ℚ))
  | [w, f] =>
    if w = [] && f = [] then none
    else
      match toNatDigits? (w ++ f) with
      | some n => some ((n : ℚ) / 10 ^ f.length)
      | none => none
  | _ => none

/-- The engine's cast of a string to double: its decimal value, NULL when
unparseable.  (Doubles are modelled as exact rationals.) -/
def castStrToDouble (s : String) : Value :=
  match parseDec s with
  | some q => .vDbl q
  | none => .vNull

/-- ROUND half-up (away from zero on ties), the rounding mode of the
engine's `round` function. -/
def roundHalfUp (q : ℚ) : ℤ :=
  if q < 0 then -⌊-q + 1 / 2⌋ else ⌊q + 1 / 2⌋

/-- Round a rational to 2 decimal places, half away from zero. -/
def roundTo2 (q : ℚ) : ℚ :=
  (roundHalfUp (q * 100) : ℚ) / 100

/-- `round(col, 2)`: rounds doubles to 2 decimals, leaves integers
unchanged, propagates NULL. -/
def vRound2 : Value → Value
  | .vDbl q => .vDbl (roundTo2 q)
  | .vInt n => .vInt n
  | _ => .vNull

/-- `convert_to_numeric`: with `to_double` set, strip `[^0-9.]`, cast to
double and round to 2 decimals (two chained `withColumn` calls); otherwise
strip `[^0-9]` and cast to int. -/
def convert_to_numeric (df : DataFrame) (column_name : String)
    (to_double : Bool) : DataFrame :=
  if to_double then
    (df.withColumn column_name (fun cs r =>
        match valueToStr? (getCell cs r column_name) with
        | some s => castStrToDouble (String.mk (s.toList.filter
            (fun ch => ch.isDigit || decide (ch = '.'))))
        | none => .vNull)).withColumn column_name
      (fun cs r => vRound2 (getCell cs r column_name))
  else
    df.withColumn column_name (fun cs r =>
      match valueToStr? (getCell cs r column_name) with
      | some s => castStrToInt (String.mk (s.toList.filter Char.isDigit))
      | none => .vNull)

/-- Two's-complement wrap-around of the engine's 32-bit IntegerType
arithmetic (Java int semantics): the representative of `n` modulo `2^32`
lying in `[-2^31, 2^31)`. -/
def wrap32 (n : Int) : Int :=
  (n + 2 ^ 31) % 2 ^ 32 - 2 ^ 31

/-- `+` of two numeric columns (int + int stays int and wraps at 32 bits,
any double makes a double, anything else is NULL). -/
def vAdd : Value → Value → Value
  | .vInt a, .vInt b => .vInt (wrap32 (a + b))
  | .vInt a, .vDbl q => .vDbl (a + q)
  | .vDbl q, .vInt a => .vDbl (q + a)
  | .vDbl p, .vDbl q => .vDbl (p + q)
  | _, _ => .vNull

/-- `/ 2` on a numeric column: SQL division always yields a double. -/
def vDiv2 : Value → Value
  | .vInt a => .vDbl ((a : ℚ) / 2)
  | .vDbl q => .vDbl (q / 2)
  | _ => .vNull

/-- `* k` with an integer literal (int stays int and wraps at 32 bits,
double stays double). -/
def vMulI (v : Value) (k : Int) : Value :=
  match v with
  | .vInt a => .vInt (wrap32 (a * k))
  | .vDbl q => .vDbl (q * (k : ℚ))
  | _ => .vNull

/-- The `when(...).when(...).when(...).otherwise(...)` chain of
`annualize_salary` applied to the column named `srcCol`: Annual kept,
Hourly times 2080, Daily times 260, anything else (including NULL
frequency, for which every `when` condition is not-true) kept. -/
def annualizeExpr (srcCol : String) : List String → List Value → Value :=
  fun cs r =>
    let f := getCell cs r "salary_frequency"
    let v := getCell cs r srcCol
    if f = .vStr "Annual" then v
    else if f = .vStr "Hourly" then vMulI v 2080
    else if f = .vStr "Daily" then vMulI v 260
    else v

/-- `annualize_salary`: adds `avg_salary = round((min + max) / 2, 2)`,
then the three annualized columns scaled per `salary_frequency`. -/
def annualize_salary (df : DataFrame) : DataFrame :=
  let df1 := df.withColumn "avg_salary" (fun cs r =>
    vRound2 (vDiv2 (vAdd (getCell cs r "salary_min_range")
      (getCell cs r "salary_max_range"))))
  ((df1.withColumn "annualized_salary_min_range"
      (annualizeExpr "salary_min_range")).withColumn
    "annualized_salary_max_range"
      (annualizeExpr "salary_max_range")).withColumn
    "annualized_salary_avg_range"
      (annualizeExpr "avg_salary")

/-- Lower-casing a string character by character (ASCII, as the matched
keywords are ASCII). -/
def lowerStr (s : String) : String :=
  String.mk (s.toList.map Char.toLower)

/-- The alternation branches of the regex
`master|phd|doctorate|graduate|degree|graduation`. -/
def degreeKeywords : List String :=
  ["master", "phd", "doctorate", "graduate", "degree", "graduation"]

/-- `create_qualification_indicator`: flag 1 when
`lower(min_qualify_requirements)` matches the keyword regex (i.e. contains
one of the keywords as a substring), else 0; a NULL text gives a NULL
condition, hence the `otherwise` branch 0. -/
def create_qualification_indicator (df : DataFrame) : DataFrame :=
  df.withColumn "is_degree_req" (fun cs r =>
    match valueToStr? (getCell cs r "min_qualify_requirements") with
    | some s =>
      if degreeKeywords.any (fun k => decide (k.toList <:+: (lowerStr s).toList))
      then .vInt 1 else .vInt 0
    | none => .vInt 0)

/-- `drop_columns`: drops each listed column in turn. -/
def drop_columns (df : DataFrame) (columns_to_drop : List String) : DataFrame :=
  columns_to_drop.foldl (fun d c => d.dropCol c) df

/-- Strict order on cells used by the window's `orderBy` (SQL ordering:
NULL first, then within each type the usual order; distinct kinds are
ranked by a tag, though a typed column never mixes kinds). -/
def Value.tag : Value → Nat
  | .vNull => 0
  | .vInt _ => 1
  | .vDbl _ => 2
  | .vStr _ => 3

/-- Boolean strict comparison of two cells. -/
def valueLtB : Value → Value → Bool
  | .vInt a, .vInt b => decide (a < b)
  | .vDbl a, .vDbl b => decide (a < b)
  | .vStr a, .vStr b => decide (a < b)
  | a, b => decide (a.tag < b.tag)

/-- Lexicographic strict comparison of two key tuples. -/
def listLtB : List Value → List Value → Bool
  | _, [] => false
  | [], _ :: _ => true
  | a :: as, b :: bs => valueLtB a b || (decide (a = b) && listLtB as bs)

/-- The tuple of cells of a row at the columns of a grain list. -/
def keyOf (cols : List String) (grain : List String) (r : List Value) :
    List Value :=
  grain.map (getCell cols r)

/-- `beats df dg og is_desc j i`: in the window partitioned by `dg` and
ordered by `og` (descending when `is_desc`), row `j` is ranked strictly
before row `i` — same partition, and either a strictly smaller (greater,
when descending) order key, or an equal order key and an earlier position
(the stable resolution of the engine's unspecified tie order). -/
def beats (df : DataFrame) (dg og : List String) (is_desc : Bool)
    (j i : Nat) : Bool :=
  let rj := rowAt df j
  let ri := rowAt df i
  let kj := keyOf df.columns og rj
  let ki := keyOf df.columns og ri
  decide (keyOf df.columns dg rj = keyOf df.columns dg ri) &&
    ((if is_desc then listLtB ki kj else listLtB kj ki) ||
      (decide (kj = ki) && decide (j < i)))

/-- `row_number()` of the row at position `i` in its window partition. -/
def rankOf (df : DataFrame) (dg og : List String) (is_desc : Bool)
    (i : Nat) : Nat :=
  1 + ((List.range df.rows.length).filter
    (fun j => beats df dg og is_desc j i)).length

/-- The window/filter/drop body of `remove_duplicates`:
`df.withColumn("rank", row_number().over(win_spec)).filter('rank = 1').drop('rank')`. -/
def dedupCore (df : DataFrame) (dg og : List String) (is_desc : Bool) :
    DataFrame :=
  ((df.withColumnVals "rank"
      ((List.range df.rows.length).map
        (fun i => Value.vInt (rankOf df dg og is_desc i)))).filterRows
    (fun cs r => decide (getCell cs r "rank" = Value.vInt 1))).dropCol "rank"

/-- `remove_duplicates`: the engine's analysis fails (AnalysisException)
when the order grain is empty — `row_number()` requires an ordered
window — or when a partition or order column cannot be resolved;
otherwise the window/filter/drop body runs. -/
def remove_duplicates (df : DataFrame) (dedup_grain order_grain : List String)
    (is_desc : Bool) : Except String DataFrame :=
  if order_grain ≠ [] ∧ ((dedup_grain ++ order_grain).all
      (fun c => (colIdx? df.columns c).isSome)) = true then
    .ok (dedupCore df dedup_grain order_grain is_desc)
  else
    .error "AnalysisException"

/-!  File-system model for `export_to_csv`: a set of directories and of
files addressed as (directory, file name), each file a list of lines. -/

/-- File-system state: existing directories, and files keyed by
(directory, name) with their lines. -/
structure FS where
  dirs : List String
  files : List (String × String × List String)

/-- One CSV line: cells joined by commas (quoting is not modelled; the
claims only concern the presence of the header line). -/
def csvLine (cells : List String) : String :=
  String.intercalate "," cells

/-- CSV text of a DataFrame: header line of column names, then one line
per row. -/
def csvLines (df : DataFrame) : List String :=
  csvLine df.columns ::
    df.rows.map (fun r => csvLine (r.map (fun v => (valueToStr? v).getD "")))

/-- `df.coalesce(1).write.option("header", "true").csv(dir, mode="overwrite")`:
(re)creates `dir`, discards its previous contents, and writes a single
part file (whose name ends in `.csv`) plus the `_SUCCESS` marker. -/
def sparkWriteCsv (df : DataFrame) (dir : String) (fs : FS) : FS :=
  { dirs := dir :: fs.dirs.filter (fun d => d ≠ dir),
    files := (dir, "part-00000.csv", csvLines df) :: (dir, "_SUCCESS", []) ::
      fs.files.filter (fun e => e.1 ≠ dir) }

/-- `os.listdir(dir)`: the names of the files in `dir`. -/
def listdir (fs : FS) (dir : String) : List String :=
  (fs.files.filter (fun e => e.1 = dir)).map (fun e => e.2.1)

/-- `os.rename` of a file: removes the source entry (and any entry already
at the target, which `rename` overwrites) and re-adds the content at the
target address. -/
def osRename (fs : FS) (d1 n1 d2 n2 : String) : FS :=
  let content :=
    ((fs.files.find? (fun e => e.1 = d1 && e.2.1 = n1)).map
      (fun e => e.2.2)).getD []
  { dirs := fs.dirs,
    files := (d2, n2, content) ::
      fs.files.filter (fun e =>
        ¬(e.1 = d1 ∧ e.2.1 = n1) ∧ ¬(e.1 = d2 ∧ e.2.1 = n2)) }

/-- `shutil.rmtree(dir)`: removes the directory and every file in it. -/
def rmtree (fs : FS) (dir : String) : FS :=
  { dirs := fs.dirs.filter (fun d => d ≠ dir),
    files := fs.files.filter (fun e => e.1 ≠ dir) }

/-- `str.endswith(suffix)`: the string ends in the given suffix
(computed on the character lists). -/
def strEndsWith (s suffix : String) : Bool :=
  decide (suffix.length ≤ s.length) &&
    decide (List.drop (s.length - suffix.length) s.toList = suffix.toList)

/-- `export_to_csv`: write to the staging directory
`output_path + "/temp_output_folder"`, move the first file ending in
`.csv` to `output_path + "/" + file_name` (the Python loop breaks after
the first), then remove the staging directory. -/
def export_to_csv (df : DataFrame) (output_path file_name : String)
    (fs : FS) : FS :=
  let temp := output_path ++ "/temp_output_folder"
  let fs1 := sparkWriteCsv df temp fs
  let names := listdir fs1 temp
  let fs2 :=
    match names.find? (fun f => strEndsWith f ".csv") with
    | some f => osRename fs1 temp f output_path file_name
    | none => fs1
  rmtree fs2 temp

/-! ### Column resolution and cell access lemmas -/

theorem colIdx?_lt_length {cols : List String} {c : String} {j : Nat}
    (h : colIdx? cols c = some j) : j < cols.length := by
  induction cols generalizing j with
  | nil => simp [colIdx?] at h
  | cons c' rest ih =>
    rw [colIdx?] at h
    by_cases hc : c' = c
    · rw [if_pos hc] at h
      simp at h
      simp only [List.length_cons]
      omega
    · rw [if_neg hc, Option.map_eq_some'] at h
      obtain ⟨j', hj', rfl⟩ := h
      have := ih hj'
      simp only [List.length_cons]
      omega

theorem colIdx?_getElem? {cols : List String} {c : String} {j : Nat}
    (h : colIdx? cols c = some j) : cols[j]? = some c := by
  induction cols generalizing j with
  | nil => simp [colIdx?] at h
  | cons c' rest ih =>
    rw [colIdx?] at h
    by_cases hc : c' = c
    · rw [if_pos hc] at h
      simp at h
      simp [← h, hc]
    · rw [if_neg hc, Option.map_eq_some'] at h
      obtain ⟨j', hj', rfl⟩ := h
      simpa using ih hj'

theorem colIdx?_isSome_iff {cols : List String} {c : String} :
    (colIdx? cols c).isSome = true ↔ c ∈ cols := by
  induction cols with
  | nil => simp [colIdx?]
  | cons c' rest ih =>
    by_cases hc : c' = c
    · simp [colIdx?, hc]
    · simp [colIdx?, hc, ih, Option.isSome_map', Ne.symm hc]

theorem colIdx?_eq_none_iff {cols : List String} {c : String} :
    colIdx? cols c = none ↔ c ∉ cols := by
  rw [← colIdx?_isSome_iff]
  cases colIdx? cols c <;> simp

theorem colIdx?_append_of_some {l₁ l₂ : List String} {c : String} {j : Nat}
    (h : colIdx? l₁ c = some j) : colIdx? (l₁ ++ l₂) c = some j := by
  induction l₁ generalizing j with
  | nil => simp [colIdx?] at h
  | cons c' rest ih =>
    rw [List.cons_append, colIdx?]
    rw [colIdx?] at h
    by_cases hc : c' = c
    · rw [if_pos hc] at h ⊢
      exact h
    · rw [if_neg hc] at h ⊢
      rw [Option.map_eq_some'] at h
      obtain ⟨j', hj', rfl⟩ := h
      rw [ih hj', Option.map_some']

theorem colIdx?_append_singleton_self {l₁ : List String} {c : String}
    (h : c ∉ l₁) : colIdx? (l₁ ++ [c]) c = some l₁.length := by
  induction l₁ with
  | nil => simp [colIdx?]
  | cons c' rest ih =>
    simp only [List.mem_cons, not_or] at h
    simp [colIdx?, Ne.symm h.1, ih h.2]

theorem getCell_append_self {cols : List String} {c : String}
    {r : List Value} {v : Value} (hc : c ∉ cols)
    (hr : r.length = cols.length) :
    getCell (cols ++ [c]) (r ++ [v]) c = v := by
  have hv : (r ++ [v]).getD cols.length .vNull = v := by
    rw [← hr, List.getD_eq_getElem?_getD, List.getElem?_concat_length]
    rfl
  simp only [getCell, colIdx?_append_singleton_self hc, hv]

theorem getCell_append_other {cols : List String} {c c' : String}
    {r : List Value} {v : Value} (hne : c' ≠ c)
    (hr : r.length = cols.length) :
    getCell (cols ++ [c]) (r ++ [v]) c' = getCell cols r c' := by
  rcases hj : colIdx? cols c' with _ | j
  · have hmem := colIdx?_eq_none_iff.mp hj
    have hnone : colIdx? (cols ++ [c]) c' = none := by
      rw [colIdx?_eq_none_iff]
      simp [hmem, hne]
    simp only [getCell, hj, hnone]
  · have hlt := colIdx?_lt_length hj
    simp only [getCell, hj, colIdx?_append_of_some hj]
    rw [List.getD_eq_getElem?_getD, List.getD_eq_getElem?_getD,
      List.getElem?_append_left (show j < r.length by omega)]

theorem getCell_set_self {cols : List String} {c : String} {j : Nat}
    {r : List Value} {v : Value} (hj : colIdx? cols c = some j)
    (hr : r.length = cols.length) :
    getCell cols (r.set j v) c = v := by
  have hlt := colIdx?_lt_length hj
  simp only [getCell, hj]
  rw [List.getD_eq_getElem (r.set j v) _ (by rw [List.length_set]; omega)]
  exact List.getElem_set_self _

theorem getCell_set_other {cols : List String} {name c' : String} {j : Nat}
    {r : List Value} {v : Value} (hj : colIdx? cols name = some j)
    (hne : c' ≠ name) :
    getCell cols (r.set j v) c' = getCell cols r c' := by
  rcases hj' : colIdx? cols c' with _ | j'
  · simp only [getCell, hj']
  · have hget := colIdx?_getElem? hj
    have hget' := colIdx?_getElem? hj'
    have hjj : j' ≠ j := by
      intro h
      rw [h, hget] at hget'
      exact hne (Option.some.injEq _ _ ▸ hget'.symm)
    simp only [getCell, hj']
    rw [List.getD_eq_getElem?_getD, List.getD_eq_getElem?_getD]
    by_cases hlt : j' < r.length
    · rw [List.getElem?_eq_getElem (show j' < (r.set j v).length by
          rw [List.length_set]; omega),
        List.getElem?_eq_getElem hlt]
      simp [List.getElem_set_ne (Ne.symm hjj)]
    · rw [List.getElem?_eq_none (show (r.set j v).length ≤ j' by
          rw [List.length_set]; omega),
        List.getElem?_eq_none (show r.length ≤ j' by omega)]

theorem getD_map_of_lt {α β : Type} {f : α → β} {l : List α} {i : Nat}
    (hi : i < l.length) (d : β) (d' : α) :
    (l.map f).getD i d = f (l.getD i d') := by
  rw [List.getD_eq_getElem _ _ (by simpa using hi),
    List.getD_eq_getElem _ _ hi, List.getElem_map]

theorem rowAt_mem {df : DataFrame} {i : Nat} (hi : i < df.rows.length) :
    rowAt df i ∈ df.rows := by
  rw [rowAt, List.getD_eq_getElem _ _ hi]
  exact List.getElem_mem hi

theorem rowAt_length {df : DataFrame} {i : Nat} (hwf : df.WF)
    (hi : i < df.rows.length) :
    (rowAt df i).length = df.columns.length :=
  hwf _ (rowAt_mem hi)

theorem withColumn_rows_length (df : DataFrame) (name : String)
    (e : List String → List Value → Value) :
    (df.withColumn name e).rows.length = df.rows.length := by
  rw [DataFrame.withColumn]
  rcases colIdx? df.columns name with _ | j <;> simp

theorem withColumn_WF {df : DataFrame} {name : String}
    {e : List String → List Value → Value} (hwf : df.WF) :
    (df.withColumn name e).WF := by
  rw [DataFrame.withColumn]
  rcases colIdx? df.columns name with _ | j <;>
    · intro r hr
      simp only [List.mem_map] at hr
      obtain ⟨r', hr', rfl⟩ := hr
      simp [hwf r' hr']

theorem rowAt_withColumn_some {df : DataFrame} {name : String}
    {e : List String → List Value → Value} {j i : Nat}
    (hj : colIdx? df.columns name = some j) (hi : i < df.rows.length) :
    rowAt (df.withColumn name e) i
      = (rowAt df i).set j (e df.columns (rowAt df i)) := by
  rw [DataFrame.withColumn, hj, rowAt, rowAt]
  exact getD_map_of_lt hi _ _

theorem rowAt_withColumn_none {df : DataFrame} {name : String}
    {e : List String → List Value → Value} {i : Nat}
    (hj : colIdx? df.columns name = none) (hi : i < df.rows.length) :
    rowAt (df.withColumn name e) i
      = rowAt df i ++ [e df.columns (rowAt df i)] := by
  rw [DataFrame.withColumn, hj, rowAt, rowAt]
  exact getD_map_of_lt hi _ _

theorem getCell_withColumn_self {df : DataFrame} {name : String}
    {e : List String → List Value → Value} {i : Nat} (hwf : df.WF)
    (hi : i < df.rows.length) :
    getCell (df.withColumn name e).columns (rowAt (df.withColumn name e) i)
        name = e df.columns (rowAt df i) := by
  have hr := rowAt_length hwf hi
  rcases hj : colIdx? df.columns name with _ | j
  · rw [rowAt_withColumn_none hj hi]
    have hcols : (df.withColumn name e).columns = df.columns ++ [name] := by
      rw [DataFrame.withColumn, hj]
    rw [hcols]
    exact getCell_append_self (colIdx?_eq_none_iff.mp hj) hr
  · rw [rowAt_withColumn_some hj hi]
    have hcols : (df.withColumn name e).columns = df.columns := by
      rw [DataFrame.withColumn, hj]
    rw [hcols]
    exact getCell_set_self hj hr

theorem getCell_withColumn_other {df : DataFrame} {name c' : String}
    {e : List String → List Value → Value} {i : Nat} (hwf : df.WF)
    (hi : i < df.rows.length) (hne : c' ≠ name) :
    getCell (df.withColumn name e).columns (rowAt (df.withColumn name e) i)
        c' = getCell df.columns (rowAt df i) c' := by
  have hr := rowAt_length hwf hi
  rcases hj : colIdx? df.columns name with _ | j
  · rw [rowAt_withColumn_none hj hi]
    have hcols : (df.withColumn name e).columns = df.columns ++ [name] := by
      rw [DataFrame.withColumn, hj]
    rw [hcols]
    exact getCell_append_other hne hr
  · rw [rowAt_withColumn_some hj hi]
    have hcols : (df.withColumn name e).columns = df.columns := by
      rw [DataFrame.withColumn, hj]
    rw [hcols]
    exact getCell_set_other hj hne

theorem withColumn_columns_of_some {df : DataFrame} {name : String}
    {e : List String → List Value → Value} {j : Nat}
    (hj : colIdx? df.columns name = some j) :
    (df.withColumn name e).columns = df.columns := by
  rw [DataFrame.withColumn, hj]

/-! ### Claim C8: remove_special_characters -/

/-- C8: `remove_special_characters` replaces, in the named column only,
every character that is not an ASCII letter, digit, comma, space or hyphen
with the empty string: the column's string cell becomes exactly its
subsequence of allow-listed characters (so allow-listed characters are
preserved), every other column of the row is unchanged, and the schema and
row count are unchanged. -/
theorem remove_special_characters_spec (df : DataFrame) (column_name : String)
    (i : Nat) (s : String) (hwf : df.WF) (hi : i < df.rows.length)
    (hcol : column_name ∈ df.columns)
    (hcell : getCell df.columns (rowAt df i) column_name = .vStr s) :
    (remove_special_characters df column_name).columns = df.columns ∧
    (remove_special_characters df column_name).rows.length = df.rows.length ∧
    getCell (remove_special_characters df column_name).columns
        (rowAt (remove_special_characters df column_name) i) column_name
      = .vStr (String.mk (s.toList.filter allowedChar)) ∧
    (∀ ch ∈ s.toList.filter allowedChar, allowedChar ch = true) ∧
    (∀ c', c' ≠ column_name →
      getCell (remove_special_characters df column_name).columns
          (rowAt (remove_special_characters df column_name) i) c'
        = getCell df.columns (rowAt df i) c') := by
  obtain ⟨j, hj⟩ := Option.isSome_iff_exists.mp
    (colIdx?_isSome_iff.mpr hcol)
  refine ⟨?_, ?_, ?_, ?_, ?_⟩
  · exact withColumn_columns_of_some hj
  · exact withColumn_rows_length df column_name _
  · rw [remove_special_characters, getCell_withColumn_self hwf hi]
    show (match valueToStr? (getCell df.columns (rowAt df i) column_name) with
      | some s => Value.vStr (String.mk (s.toList.filter allowedChar))
      | none => Value.vNull) = _
    rw [hcell]
    rfl
  · intro ch hch
    exact (List.mem_filter.mp hch).2
  · intro c' hne
    rw [remove_special_characters, getCell_withColumn_other hwf hi hne]

/-- C8 witness: on a concrete row, `"a$b,c d-e!"` becomes `"ab,c d-e"`
and the other column keeps its value. -/
theorem remove_special_characters_spec_witness :
    getCell (remove_special_characters
        ⟨["t", "k"], [[.vStr "a$b,c d-e!", .vInt 7]]⟩ "t").columns
      (rowAt (remove_special_characters
        ⟨["t", "k"], [[.vStr "a$b,c d-e!", .vInt 7]]⟩ "t") 0) "t"
      = .vStr "ab,c d-e" ∧
    getCell (remove_special_characters
        ⟨["t", "k"], [[.vStr "a$b,c d-e!", .vInt 7]]⟩ "t").columns
      (rowAt (remove_special_characters
        ⟨["t", "k"], [[.vStr "a$b,c d-e!", .vInt 7]]⟩ "t") 0) "k"
      = .vInt 7 := by
  obtain ⟨hc, hl, hself, hallow, hother⟩ :=
    remove_special_characters_spec
      ⟨["t", "k"], [[.vStr "a$b,c d-e!", .vInt 7]]⟩ "t" 0 "a$b,c d-e!"
      (by unfold DataFrame.WF; decide) (by decide) (by decide) rfl
  refine ⟨?_, ?_⟩
  · rw [hself]
    rfl
  · rw [hother "k" (by decide)]
    rfl

/-! ### Claim C5: create_qualification_indicator -/

/-- C5: `create_qualification_indicator` sets `is_degree_req` to 1 exactly
when the lower-cased free text of `min_qualify_requirements` contains one
of the keywords master, phd, doctorate, graduate, degree, graduation as a
substring (the regex being an alternation of these literals), and to 0
otherwise. -/
theorem create_qualification_indicator_spec (df : DataFrame) (i : Nat)
    (s : String) (hwf : df.WF) (hi : i < df.rows.length)
    (hcell : getCell df.columns (rowAt df i) "min_qualify_requirements"
      = .vStr s) :
    (getCell (create_qualification_indicator df).columns
        (rowAt (create_qualification_indicator df) i) "is_degree_req"
        = .vInt 1
      ∨ getCell (create_qualification_indicator df).columns
        (rowAt (create_qualification_indicator df) i) "is_degree_req"
        = .vInt 0) ∧
    (getCell (create_qualification_indicator df).columns
        (rowAt (create_qualification_indicator df) i) "is_degree_req"
        = .vInt 1
      ↔ ∃ kw ∈ degreeKeywords, kw.toList <:+: (lowerStr s).toList) := by
  have hcellval : getCell (create_qualification_indicator df).columns
      (rowAt (create_qualification_indicator df) i) "is_degree_req"
      = (if degreeKeywords.any
            (fun k => decide (k.toList <:+: (lowerStr s).toList))
        then Value.vInt 1 else Value.vInt 0) := by
    rw [create_qualification_indicator, getCell_withColumn_self hwf hi]
    show (match valueToStr? (getCell df.columns (rowAt df i)
        "min_qualify_requirements") with
      | some s =>
        if degreeKeywords.any
            (fun k => decide (k.toList <:+: (lowerStr s).toList))
        then Value.vInt 1 else Value.vInt 0
      | none => Value.vInt 0) = _
    rw [hcell]
    rfl
  constructor
  · rw [hcellval]
    split_ifs
    · exact Or.inl rfl
    · exact Or.inr rfl
  · rw [hcellval]
    by_cases h : degreeKeywords.any
        (fun k => decide (k.toList <:+: (lowerStr s).toList)) = true
    · rw [if_pos h]
      obtain ⟨kw, hkw, hdec⟩ := List.any_eq_true.mp h
      exact ⟨fun _ => ⟨kw, hkw, of_decide_eq_true hdec⟩, fun _ => rfl⟩
    · rw [if_neg h]
      constructor
      · intro hcontr
        simp at hcontr
      · rintro ⟨kw, hkw, hinf⟩
        exact absurd (List.any_eq_true.mpr ⟨kw, hkw, decide_eq_true hinf⟩) h

/-- C5 witness: the text "PhD required" yields flag 1 and the text
"Bachelor preferred" yields flag 0, on a concrete two-row DataFrame. -/
theorem create_qualification_indicator_spec_witness :
    getCell (create_qualification_indicator
        ⟨["min_qualify_requirements"],
          [[.vStr "PhD required"], [.vStr "Bachelor preferred"]]⟩).columns
      (rowAt (create_qualification_indicator
        ⟨["min_qualify_requirements"],
          [[.vStr "PhD required"], [.vStr "Bachelor preferred"]]⟩) 0)
      "is_degree_req" = .vInt 1 ∧
    getCell (create_qualification_indicator
        ⟨["min_qualify_requirements"],
          [[.vStr "PhD required"], [.vStr "Bachelor preferred"]]⟩).columns
      (rowAt (create_qualification_indicator
        ⟨["min_qualify_requirements"],
          [[.vStr "PhD required"], [.vStr "Bachelor preferred"]]⟩) 1)
      "is_degree_req" = .vInt 0 := by
  obtain ⟨hor0, hiff0⟩ := create_qualification_indicator_spec
    ⟨["min_qualify_requirements"],
      [[.vStr "PhD required"], [.vStr "Bachelor preferred"]]⟩ 0
    "PhD required" (by unfold DataFrame.WF; decide) (by decide) rfl
  obtain ⟨hor1, hiff1⟩ := create_qualification_indicator_spec
    ⟨["min_qualify_requirements"],
      [[.vStr "PhD required"], [.vStr "Bachelor preferred"]]⟩ 1
    "Bachelor preferred" (by unfold DataFrame.WF; decide) (by decide) rfl
  refine ⟨hiff0.mpr ⟨"phd", by decide, by decide⟩, ?_⟩
  rcases hor1 with h1 | h0
  · exact absurd (hiff1.mp h1) (by decide)
  · exact h0

/-! ### Claim C3: annualize_salary -/

theorem wrap32_eq_self {n : Int} (h1 : -2 ^ 31 ≤ n) (h2 : n < 2 ^ 31) :
    wrap32 n = n := by
  rw [wrap32, Int.emod_eq_of_lt (by omega) (by omega)]
  omega

/-- C3: `annualize_salary` multiplies `salary_min_range`,
`salary_max_range` and the computed (rounded) average by the
per-frequency factor — Hourly ×2080, Daily ×260, Annual ×1, any other
frequency unchanged (×1) — into the three new annualized columns,
keeping the row count.  The min/max multiplications and the min+max sum
are the engine's 32-bit IntegerType arithmetic, which wraps; whenever
the mathematical results are representable they are produced exactly
(final three conjuncts).  Instantiated at frequency "Hourly", min 10,
max 20 this gives 20800, 41600 and 31200 (see the witness). -/
theorem annualize_salary_spec (df : DataFrame) (i : Nat) (freq : String)
    (a b : Int) (hwf : df.WF) (hi : i < df.rows.length)
    (ha32 : -2 ^ 31 ≤ a ∧ a < 2 ^ 31) (hb32 : -2 ^ 31 ≤ b ∧ b < 2 ^ 31)
    (hf : getCell df.columns (rowAt df i) "salary_frequency" = .vStr freq)
    (ha : getCell df.columns (rowAt df i) "salary_min_range" = .vInt a)
    (hb : getCell df.columns (rowAt df i) "salary_max_range" = .vInt b) :
    (annualize_salary df).rows.length = df.rows.length ∧
    getCell (annualize_salary df).columns (rowAt (annualize_salary df) i)
        "annualized_salary_min_range"
      = .vInt (wrap32 (a * (if freq = "Hourly" then 2080
          else if freq = "Daily" then 260 else 1))) ∧
    getCell (annualize_salary df).columns (rowAt (annualize_salary df) i)
        "annualized_salary_max_range"
      = .vInt (wrap32 (b * (if freq = "Hourly" then 2080
          else if freq = "Daily" then 260 else 1))) ∧
    getCell (annualize_salary df).columns (rowAt (annualize_salary df) i)
        "avg_salary" = .vDbl (roundTo2 ((wrap32 (a + b) : ℚ) / 2)) ∧
    getCell (annualize_salary df).columns (rowAt (annualize_salary df) i)
        "annualized_salary_avg_range"
      = .vDbl (roundTo2 ((wrap32 (a + b) : ℚ) / 2)
          * (if freq = "Hourly" then (2080 : ℚ)
            else if freq = "Daily" then 260 else 1)) ∧
    (-2 ^ 31 ≤ a * (if freq = "Hourly" then 2080
        else if freq = "Daily" then 260 else 1) →
      a * (if freq = "Hourly" then 2080
        else if freq = "Daily" then 260 else 1) < 2 ^ 31 →
      getCell (annualize_salary df).columns (rowAt (annualize_salary df) i)
          "annualized_salary_min_range"
        = .vInt (a * (if freq = "Hourly" then 2080
            else if freq = "Daily" then 260 else 1))) ∧
    (-2 ^ 31 ≤ b * (if freq = "Hourly" then 2080
        else if freq = "Daily" then 260 else 1) →
      b * (if freq = "Hourly" then 2080
        else if freq = "Daily" then 260 else 1) < 2 ^ 31 →
      getCell (annualize_salary df).columns (rowAt (annualize_salary df) i)
          "annualized_salary_max_range"
        = .vInt (b * (if freq = "Hourly" then 2080
            else if freq = "Daily" then 260 else 1))) ∧
    (-2 ^ 31 ≤ a + b → a + b < 2 ^ 31 →
      getCell (annualize_salary df).columns (rowAt (annualize_salary df) i)
          "avg_salary" = .vDbl (roundTo2 (((a : ℚ) + (b : ℚ)) / 2)) ∧
      getCell (annualize_salary df).columns (rowAt (annualize_salary df) i)
          "annualized_salary_avg_range"
        = .vDbl (roundTo2 (((a : ℚ) + (b : ℚ)) / 2)
            * (if freq = "Hourly" then (2080 : ℚ)
              else if freq = "Daily" then 260 else 1))) := by
  have hdef : annualize_salary df
      = (((df.withColumn "avg_salary" (fun cs r =>
            vRound2 (vDiv2 (vAdd (getCell cs r "salary_min_range")
              (getCell cs r "salary_max_range"))))).withColumn
          "annualized_salary_min_range"
            (annualizeExpr "salary_min_range")).withColumn
          "annualized_salary_max_range"
            (annualizeExpr "salary_max_range")).withColumn
          "annualized_salary_avg_range"
            (annualizeExpr "avg_salary") := rfl
  rw [hdef]
  set eAvg : List String → List Value → Value := fun cs r =>
    vRound2 (vDiv2 (vAdd (getCell cs r "salary_min_range")
      (getCell cs r "salary_max_range"))) with heAvg
  set df1 := df.withColumn "avg_salary" eAvg with hdf1
  set df2 := df1.withColumn "annualized_salary_min_range"
    (annualizeExpr "salary_min_range") with hdf2
  set df3 := df2.withColumn "annualized_salary_max_range"
    (annualizeExpr "salary_max_range") with hdf3
  set df4 := df3.withColumn "annualized_salary_avg_range"
    (annualizeExpr "avg_salary") with hdf4
  have hwf1 : df1.WF := withColumn_WF hwf
  have hwf2 : df2.WF := withColumn_WF hwf1
  have hwf3 : df3.WF := withColumn_WF hwf2
  have hi1 : i < df1.rows.length := by
    rw [hdf1, withColumn_rows_length]
    exact hi
  have hi2 : i < df2.rows.length := by
    rw [hdf2, withColumn_rows_length]
    exact hi1
  have hi3 : i < df3.rows.length := by
    rw [hdf3, withColumn_rows_length]
    exact hi2
  have hfr1 : getCell df1.columns (rowAt df1 i) "salary_frequency"
      = .vStr freq := by
    rw [hdf1, getCell_withColumn_other hwf hi (by decide)]
    exact hf
  have hfr2 : getCell df2.columns (rowAt df2 i) "salary_frequency"
      = .vStr freq := by
    rw [hdf2, getCell_withColumn_other hwf1 hi1 (by decide)]
    exact hfr1
  have hfr3 : getCell df3.columns (rowAt df3 i) "salary_frequency"
      = .vStr freq := by
    rw [hdf3, getCell_withColumn_other hwf2 hi2 (by decide)]
    exact hfr2
  have ha1 : getCell df1.columns (rowAt df1 i) "salary_min_range"
      = .vInt a := by
    rw [hdf1, getCell_withColumn_other hwf hi (by decide)]
    exact ha
  have hb1 : getCell df1.columns (rowAt df1 i) "salary_max_range"
      = .vInt b := by
    rw [hdf1, getCell_withColumn_other hwf hi (by decide)]
    exact hb
  have hb2 : getCell df2.columns (rowAt df2 i) "salary_max_range"
      = .vInt b := by
    rw [hdf2, getCell_withColumn_other hwf1 hi1 (by decide)]
    exact hb1
  have havg1 : getCell df1.columns (rowAt df1 i) "avg_salary"
      = .vDbl (roundTo2 ((wrap32 (a + b) : ℚ) / 2)) := by
    rw [hdf1, getCell_withColumn_self hwf hi]
    show vRound2 (vDiv2 (vAdd (getCell df.columns (rowAt df i)
        "salary_min_range") (getCell df.columns (rowAt df i)
        "salary_max_range"))) = _
    rw [ha, hb]
    rfl
  have havg2 : getCell df2.columns (rowAt df2 i) "avg_salary"
      = .vDbl (roundTo2 ((wrap32 (a + b) : ℚ) / 2)) := by
    rw [hdf2, getCell_withColumn_other hwf1 hi1 (by decide)]
    exact havg1
  have havg3 : getCell df3.columns (rowAt df3 i) "avg_salary"
      = .vDbl (roundTo2 ((wrap32 (a + b) : ℚ) / 2)) := by
    rw [hdf3, getCell_withColumn_other hwf2 hi2 (by decide)]
    exact havg2
  have havg4 : getCell df4.columns (rowAt df4 i) "avg_salary"
      = .vDbl (roundTo2 ((wrap32 (a + b) : ℚ) / 2)) := by
    rw [hdf4, getCell_withColumn_other hwf3 hi3 (by decide)]
    exact havg3
  have hmin2 : getCell df2.columns (rowAt df2 i)
      "annualized_salary_min_range"
      = (if freq = "Annual" then Value.vInt a
        else if freq = "Hourly" then Value.vInt (wrap32 (a * 2080))
        else if freq = "Daily" then Value.vInt (wrap32 (a * 260))
        else Value.vInt a) := by
    rw [hdf2, getCell_withColumn_self hwf1 hi1]
    show (if getCell df1.columns (rowAt df1 i) "salary_frequency"
          = .vStr "Annual"
        then getCell df1.columns (rowAt df1 i) "salary_min_range"
        else if getCell df1.columns (rowAt df1 i) "salary_frequency"
          = .vStr "Hourly"
        then vMulI (getCell df1.columns (rowAt df1 i) "salary_min_range")
          2080
        else if getCell df1.columns (rowAt df1 i) "salary_frequency"
          = .vStr "Daily"
        then vMulI (getCell df1.columns (rowAt df1 i) "salary_min_range")
          260
        else getCell df1.columns (rowAt df1 i) "salary_min_range") = _
    rw [hfr1, ha1]
    simp [Value.vStr.injEq, vMulI]
  have hmin3 : getCell df3.columns (rowAt df3 i)
      "annualized_salary_min_range"
      = (if freq = "Annual" then Value.vInt a
        else if freq = "Hourly" then Value.vInt (wrap32 (a * 2080))
        else if freq = "Daily" then Value.vInt (wrap32 (a * 260))
        else Value.vInt a) := by
    rw [hdf3, getCell_withColumn_other hwf2 hi2 (by decide)]
    exact hmin2
  have hmin4 : getCell df4.columns (rowAt df4 i)
      "annualized_salary_min_range"
      = (if freq = "Annual" then Value.vInt a
        else if freq = "Hourly" then Value.vInt (wrap32 (a * 2080))
        else if freq = "Daily" then Value.vInt (wrap32 (a * 260))
        else Value.vInt a) := by
    rw [hdf4, getCell_withColumn_other hwf3 hi3 (by decide)]
    exact hmin3
  have hmax3 : getCell df3.columns (rowAt df3 i)
      "annualized_salary_max_range"
      = (if freq = "Annual" then Value.vInt b
        else if freq = "Hourly" then Value.vInt (wrap32 (b * 2080))
        else if freq = "Daily" then Value.vInt (wrap32 (b * 260))
        else Value.vInt b) := by
    rw [hdf3, getCell_withColumn_self hwf2 hi2]
    show (if getCell df2.columns (rowAt df2 i) "salary_frequency"
          = .vStr "Annual"
        then getCell df2.columns (rowAt df2 i) "salary_max_range"
        else if getCell df2.columns (rowAt df2 i) "salary_frequency"
          = .vStr "Hourly"
        then vMulI (getCell df2.columns (rowAt df2 i) "salary_max_range")
          2080
        else if getCell df2.columns (rowAt df2 i) "salary_frequency"
          = .vStr "Daily"
        then vMulI (getCell df2.columns (rowAt df2 i) "salary_max_range")
          260
        else getCell df2.columns (rowAt df2 i) "salary_max_range") = _
    rw [hfr2, hb2]
    simp [Value.vStr.injEq, vMulI]
  have hmax4 : getCell df4.columns (rowAt df4 i)
      "annualized_salary_max_range"
      = (if freq = "Annual" then Value.vInt b
        else if freq = "Hourly" then Value.vInt (wrap32 (b * 2080))
        else if freq = "Daily" then Value.vInt (wrap32 (b * 260))
        else Value.vInt b) := by
    rw [hdf4, getCell_withColumn_other hwf3 hi3 (by decide)]
    exact hmax3
  have havgr4 : getCell df4.columns (rowAt df4 i)
      "annualized_salary_avg_range"
      = (if freq = "Annual"
          then Value.vDbl (roundTo2 ((wrap32 (a + b) : ℚ) / 2))
        else if freq = "Hourly"
          then Value.vDbl (roundTo2 ((wrap32 (a + b) : ℚ) / 2) * 2080)
        else if freq = "Daily"
          then Value.vDbl (roundTo2 ((wrap32 (a + b) : ℚ) / 2) * 260)
        else Value.vDbl (roundTo2 ((wrap32 (a + b) : ℚ) / 2))) := by
    rw [hdf4, getCell_withColumn_self hwf3 hi3]
    show (if getCell df3.columns (rowAt df3 i) "salary_frequency"
          = .vStr "Annual"
        then getCell df3.columns (rowAt df3 i) "avg_salary"
        else if getCell df3.columns (rowAt df3 i) "salary_frequency"
          = .vStr "Hourly"
        then vMulI (getCell df3.columns (rowAt df3 i) "avg_salary") 2080
        else if getCell df3.columns (rowAt df3 i) "salary_frequency"
          = .vStr "Daily"
        then vMulI (getCell df3.columns (rowAt df3 i) "avg_salary") 260
        else getCell df3.columns (rowAt df3 i) "avg_salary") = _
    rw [hfr3, havg3]
    simp [Value.vStr.injEq, vMulI]
  have hminW : getCell df4.columns (rowAt df4 i)
      "annualized_salary_min_range"
      = .vInt (wrap32 (a * (if freq = "Hourly" then 2080
          else if freq = "Daily" then 260 else 1))) := by
    rw [hmin4]
    by_cases hA : freq = "Annual"
    · rw [if_pos hA, hA,
        if_neg (by decide : ¬("Annual" : String) = "Hourly"),
        if_neg (by decide : ¬("Annual" : String) = "Daily"), mul_one,
        wrap32_eq_self ha32.1 ha32.2]
    · rw [if_neg hA]
      by_cases hH : freq = "Hourly"
      · rw [if_pos hH, hH, if_pos rfl]
      · rw [if_neg hH, if_neg hH]
        by_cases hD : freq = "Daily"
        · rw [if_pos hD, hD, if_pos rfl]
        · rw [if_neg hD, if_neg hD, mul_one,
            wrap32_eq_self ha32.1 ha32.2]
  have hmaxW : getCell df4.columns (rowAt df4 i)
      "annualized_salary_max_range"
      = .vInt (wrap32 (b * (if freq = "Hourly" then 2080
          else if freq = "Daily" then 260 else 1))) := by
    rw [hmax4]
    by_cases hA : freq = "Annual"
    · rw [if_pos hA, hA,
        if_neg (by decide : ¬("Annual" : String) = "Hourly"),
        if_neg (by decide : ¬("Annual" : String) = "Daily"), mul_one,
        wrap32_eq_self hb32.1 hb32.2]
    · rw [if_neg hA]
      by_cases hH : freq = "Hourly"
      · rw [if_pos hH, hH, if_pos rfl]
      · rw [if_neg hH, if_neg hH]
        by_cases hD : freq = "Daily"
        · rw [if_pos hD, hD, if_pos rfl]
        · rw [if_neg hD, if_neg hD, mul_one,
            wrap32_eq_self hb32.1 hb32.2]
  have havgrW : getCell df4.columns (rowAt df4 i)
      "annualized_salary_avg_range"
      = .vDbl (roundTo2 ((wrap32 (a + b) : ℚ) / 2)
          * (if freq = "Hourly" then (2080 : ℚ)
            else if freq = "Daily" then 260 else 1)) := by
    rw [havgr4]
    by_cases hA : freq = "Annual"
    · rw [if_pos hA, hA,
        if_neg (by decide : ¬("Annual" : String) = "Hourly"),
        if_neg (by decide : ¬("Annual" : String) = "Daily"), mul_one]
    · rw [if_neg hA]
      by_cases hH : freq = "Hourly"
      · rw [if_pos hH, hH, if_pos rfl]
      · rw [if_neg hH, if_neg hH]
        by_cases hD : freq = "Daily"
        · rw [if_pos hD, hD, if_pos rfl]
        · rw [if_neg hD, if_neg hD, mul_one]
  refine ⟨?_, hminW, hmaxW, havg4, havgrW, ?_, ?_, ?_⟩
  · rw [hdf4, withColumn_rows_length, hdf3, withColumn_rows_length,
      hdf2, withColumn_rows_length, hdf1, withColumn_rows_length]
  · intro h1 h2
    rw [hminW, wrap32_eq_self h1 h2]
  · intro h1 h2
    rw [hmaxW, wrap32_eq_self h1 h2]
  · intro h1 h2
    have hw : wrap32 (a + b) = a + b := wrap32_eq_self h1 h2
    constructor
    · rw [havg4, hw, Int.cast_add]
    · rw [havgrW, hw, Int.cast_add]

/-- C3 witness: a row with frequency "Hourly", min 10, max 20 gets
annualized min 20800, max 41600 and avg 31200. -/
theorem annualize_salary_spec_witness :
    getCell (annualize_salary
        ⟨["salary_frequency", "salary_min_range", "salary_max_range"],
          [[.vStr "Hourly", .vInt 10, .vInt 20]]⟩).columns
      (rowAt (annualize_salary
        ⟨["salary_frequency", "salary_min_range", "salary_max_range"],
          [[.vStr "Hourly", .vInt 10, .vInt 20]]⟩) 0)
      "annualized_salary_min_range" = .vInt 20800 ∧
    getCell (annualize_salary
        ⟨["salary_frequency", "salary_min_range", "salary_max_range"],
          [[.vStr "Hourly", .vInt 10, .vInt 20]]⟩).columns
      (rowAt (annualize_salary
        ⟨["salary_frequency", "salary_min_range", "salary_max_range"],
          [[.vStr "Hourly", .vInt 10, .vInt 20]]⟩) 0)
      "annualized_salary_max_range" = .vInt 41600 ∧
    getCell (annualize_salary
        ⟨["salary_frequency", "salary_min_range", "salary_max_range"],
          [[.vStr "Hourly", .vInt 10, .vInt 20]]⟩).columns
      (rowAt (annualize_salary
        ⟨["salary_frequency", "salary_min_range", "salary_max_range"],
          [[.vStr "Hourly", .vInt 10, .vInt 20]]⟩) 0)
      "annualized_salary_avg_range" = .vDbl 31200 := by
  obtain ⟨hlen, hmin, hmax, havg, havgr, hminX, hmaxX, havgX⟩ :=
    annualize_salary_spec
      ⟨["salary_frequency", "salary_min_range", "salary_max_range"],
        [[.vStr "Hourly", .vInt 10, .vInt 20]]⟩ 0 "Hourly" 10 20
      (by unfold DataFrame.WF; decide) (by decide) (by decide) (by decide)
      rfl rfl rfl
  refine ⟨?_, ?_, ?_⟩
  · rw [hmin, if_pos rfl]
    decide
  · rw [hmax, if_pos rfl]
    decide
  · have h30 : wrap32 (10 + 20) = 30 := by decide
    rw [havgr, if_pos rfl, h30]
    norm_num [roundTo2, roundHalfUp]

/-! ### Claim C4: convert_to_numeric -/

/-- C4: `convert_to_numeric` with `to_double = false` keeps exactly the
digit characters of the column's string and casts the result to integer;
with `to_double = true` it keeps exactly the digit and dot characters,
casts to floating point and rounds to 2 decimal places.  In particular
"$1,234abc" yields 1234 and "12.3456" yields 12.35 (see the witness). -/
theorem convert_to_numeric_spec (df : DataFrame) (c : String) (i : Nat)
    (hwf : df.WF) (hi : i < df.rows.length) :
    (∀ s, getCell df.columns (rowAt df i) c = .vStr s →
      getCell (convert_to_numeric df c false).columns
          (rowAt (convert_to_numeric df c false) i) c
        = castStrToInt (String.mk (s.toList.filter Char.isDigit))) ∧
    (∀ s, getCell df.columns (rowAt df i) c = .vStr s →
      getCell (convert_to_numeric df c true).columns
          (rowAt (convert_to_numeric df c true) i) c
        = vRound2 (castStrToDouble (String.mk (s.toList.filter
            (fun ch => ch.isDigit || decide (ch = '.')))))) := by
  constructor
  · intro s hs
    have hdeff : convert_to_numeric df c false
        = df.withColumn c (fun cs r =>
            match valueToStr? (getCell cs r c) with
            | some s => castStrToInt (String.mk (s.toList.filter Char.isDigit))
            | none => .vNull) := rfl
    rw [hdeff, getCell_withColumn_self hwf hi]
    show (match valueToStr? (getCell df.columns (rowAt df i) c) with
      | some s => castStrToInt (String.mk (s.toList.filter Char.isDigit))
      | none => Value.vNull) = _
    rw [hs]
    rfl
  · intro s hs
    have hdeft : convert_to_numeric df c true
        = (df.withColumn c (fun cs r =>
            match valueToStr? (getCell cs r c) with
            | some s => castStrToDouble (String.mk (s.toList.filter
                (fun ch => ch.isDigit || decide (ch = '.'))))
            | none => .vNull)).withColumn c
          (fun cs r => vRound2 (getCell cs r c)) := rfl
    rw [hdeft]
    set df1 := df.withColumn c (fun cs r =>
      match valueToStr? (getCell cs r c) with
      | some s => castStrToDouble (String.mk (s.toList.filter
          (fun ch => ch.isDigit || decide (ch = '.'))))
      | none => .vNull) with hdf1
    have hwf1 : df1.WF := withColumn_WF hwf
    have hi1 : i < df1.rows.length := by
      rw [hdf1, withColumn_rows_length]
      exact hi
    rw [getCell_withColumn_self hwf1 hi1]
    show vRound2 (getCell df1.columns (rowAt df1 i) c) = _
    rw [hdf1, getCell_withColumn_self hwf hi]
    show vRound2 (match valueToStr? (getCell df.columns (rowAt df i) c) with
      | some s => castStrToDouble (String.mk (s.toList.filter
          (fun ch => ch.isDigit || decide (ch = '.'))))
      | none => Value.vNull) = _
    rw [hs]
    rfl

/-- C4 witness: on concrete one-row DataFrames, "$1,234abc" becomes the
integer 1234 (`to_double = false`) and "12.3456" becomes the double 12.35
(`to_double = true`). -/
theorem convert_to_numeric_spec_witness :
    getCell (convert_to_numeric ⟨["v"], [[.vStr "$1,234abc"]]⟩ "v"
        false).columns
      (rowAt (convert_to_numeric ⟨["v"], [[.vStr "$1,234abc"]]⟩ "v"
        false) 0) "v" = .vInt 1234 ∧
    getCell (convert_to_numeric ⟨["v"], [[.vStr "12.3456"]]⟩ "v"
        true).columns
      (rowAt (convert_to_numeric ⟨["v"], [[.vStr "12.3456"]]⟩ "v"
        true) 0) "v" = .vDbl 12.35 := by
  constructor
  · rw [(convert_to_numeric_spec ⟨["v"], [[.vStr "$1,234abc"]]⟩ "v" 0
      (by unfold DataFrame.WF; decide) (by decide)).1 "$1,234abc" rfl]
    decide
  · rw [(convert_to_numeric_spec ⟨["v"], [[.vStr "12.3456"]]⟩ "v" 0
      (by unfold DataFrame.WF; decide) (by decide)).2 "12.3456" rfl]
    have h2 : castStrToDouble (String.mk ("12.3456".toList.filter
        (fun ch => ch.isDigit || decide (ch = '.'))))
        = .vDbl ((123456 : ℚ) / 10 ^ 4) := rfl
    rw [h2]
    simp only [vRound2, Value.vDbl.injEq]
    norm_num [roundTo2, roundHalfUp]

/-! ### Claims C6 and C7: col_rename_with_mapping -/

theorem mapGetD_eq_lookup (m : List (String × String)) (c dflt : String) :
    mapGetD m c dflt = (m.lookup c).getD dflt := by
  induction m with
  | nil => rfl
  | cons p rest ih =>
    obtain ⟨k, v⟩ := p
    by_cases hk : k = c
    · simp [mapGetD, hk, List.lookup]
    · have hck : (c == k) = false := beq_eq_false_iff_ne.mpr (Ne.symm hk)
      simp [mapGetD, hk, List.lookup, hck, ih]

theorem mapGetD_self (m : List (String × String)) (c : String)
    (hm : ∀ p ∈ m, p.1 = p.2) : mapGetD m c c = c := by
  induction m with
  | nil => rfl
  | cons p rest ih =>
    obtain ⟨k, v⟩ := p
    by_cases hk : k = c
    · have := hm (k, v) (by simp)
      simp at this
      simp [mapGetD, hk, ← this, hk]
    · simp only [mapGetD, if_neg hk]
      exact ih (fun p hp => hm p (List.mem_cons_of_mem _ hp))

/-- C6: `col_rename_with_mapping` signals a type error if and only if the
input is not a DataFrame; on a DataFrame it succeeds, keeps the rows, and
renames exactly the columns whose name is a key of the mapping (to the
mapped value), leaving every other column name unchanged. -/
theorem col_rename_with_mapping_spec (x : PyObj)
    (m : List (String × String)) :
    ((∃ e, col_rename_with_mapping x m = .error e) ↔ x = .nonDf) ∧
    (∀ d, x = .df d →
      ∃ out, col_rename_with_mapping x m = .ok out ∧
        out.rows = d.rows ∧
        out.columns.length = d.columns.length ∧
        ∀ j, j < d.columns.length →
          (∀ v, m.lookup (d.columns.getD j "") = some v →
            out.columns.getD j "" = v) ∧
          (m.lookup (d.columns.getD j "") = none →
            out.columns.getD j "" = d.columns.getD j "")) := by
  cases x with
  | nonDf =>
    refine ⟨⟨fun _ => rfl, fun _ => ⟨"TypeError", rfl⟩⟩, ?_⟩
    intro d hd
    exact absurd hd (by simp)
  | df d0 =>
    constructor
    · constructor
      · rintro ⟨e, he⟩
        exact absurd he (by simp [col_rename_with_mapping])
      · intro h
        exact absurd h (by simp)
    · intro d hd
      obtain rfl : d0 = d := by injection hd
      refine ⟨⟨d0.columns.map (fun c => mapGetD m c c), d0.rows⟩, rfl, rfl,
        by simp, ?_⟩
      intro j hj
      have hout : (⟨d0.columns.map (fun c => mapGetD m c c), d0.rows⟩
            : DataFrame).columns.getD j ""
          = mapGetD m (d0.columns.getD j "") (d0.columns.getD j "") :=
        getD_map_of_lt hj _ _
      constructor
      · intro v hv
        rw [hout, mapGetD_eq_lookup, hv]
        rfl
      · intro hv
        rw [hout, mapGetD_eq_lookup, hv]
        rfl

/-- C6 witness: on a non-DataFrame input a type error is signalled; on a
concrete DataFrame, a mapped column is renamed and an unmapped one is
kept. -/
theorem col_rename_with_mapping_spec_witness :
    (∃ e, col_rename_with_mapping .nonDf [("a", "z")] = .error e) ∧
    ∃ out, col_rename_with_mapping (.df ⟨["a", "b"], [[.vInt 1, .vInt 2]]⟩)
        [("a", "z")] = .ok out ∧
      out.columns.getD 0 "" = "z" ∧ out.columns.getD 1 "" = "b" := by
  constructor
  · exact (col_rename_with_mapping_spec .nonDf [("a", "z")]).1.mpr rfl
  · obtain ⟨out, hok, hrows, hlen, hcols⟩ :=
      (col_rename_with_mapping_spec (.df ⟨["a", "b"], [[.vInt 1, .vInt 2]]⟩)
        [("a", "z")]).2 ⟨["a", "b"], [[.vInt 1, .vInt 2]]⟩ rfl
    refine ⟨out, hok, ?_, ?_⟩
    · exact (hcols 0 (by decide)).1 "z" rfl
    · exact ((hcols 1 (by decide)).2 rfl).trans rfl

/-- C7: with an identity mapping (empty, or mapping every name to
itself), `col_rename_with_mapping` returns the DataFrame unchanged, so
its column names equal the input's and a second application changes
nothing. -/
theorem col_rename_identity_spec (d : DataFrame)
    (m : List (String × String)) (hm : ∀ p ∈ m, p.1 = p.2) :
    col_rename_with_mapping (.df d) m = .ok d ∧
    ∀ out, col_rename_with_mapping (.df d) m = .ok out →
      col_rename_with_mapping (.df out) m = .ok out := by
  have hself : col_rename_with_mapping (.df d) m = .ok d := by
    show Except.ok (⟨d.columns.map (fun c => mapGetD m c c), d.rows⟩
      : DataFrame) = .ok d
    have : d.columns.map (fun c => mapGetD m c c) = d.columns := by
      have hid : ∀ c, mapGetD m c c = c := fun c => mapGetD_self m c hm
      simp [hid]
    rw [this]
  refine ⟨hself, ?_⟩
  intro out hout
  have : out = d := by
    rw [hself] at hout
    injection hout with h
    exact h.symm
  rw [this]
  exact hself

/-- C7 witness: a concrete identity mapping leaves a concrete DataFrame
unchanged, twice. -/
theorem col_rename_identity_spec_witness :
    col_rename_with_mapping (.df ⟨["a", "b"], [[.vInt 1, .vStr "x"]]⟩)
        [("a", "a"), ("b", "b")] = .ok ⟨["a", "b"], [[.vInt 1, .vStr "x"]]⟩ ∧
    col_rename_with_mapping
        (.df ⟨["a", "b"], [[.vInt 1, .vStr "x"]]⟩) [("a", "a"), ("b", "b")]
      = .ok ⟨["a", "b"], [[.vInt 1, .vStr "x"]]⟩ := by
  obtain ⟨h1, h2⟩ := col_rename_identity_spec
    ⟨["a", "b"], [[.vInt 1, .vStr "x"]]⟩ [("a", "a"), ("b", "b")]
    (by decide)
  exact ⟨h1, h2 _ h1⟩

/-! ### Ordering lemmas for the window's orderBy -/

theorem valueLtB_irrefl (a : Value) : valueLtB a a = false := by
  cases a <;> simp [valueLtB, Value.tag]

theorem valueLtB_trans {a b c : Value} (h1 : valueLtB a b = true)
    (h2 : valueLtB b c = true) : valueLtB a c = true := by
  cases a <;> cases b <;> cases c <;>
    simp_all [valueLtB, Value.tag] <;>
    first
    | omega
    | exact lt_trans (by assumption) (by assumption)

theorem valueLtB_total {a b : Value} (hne : a ≠ b) :
    valueLtB a b = true ∨ valueLtB b a = true := by
  cases a <;> cases b <;>
    simp only [valueLtB, Value.tag, decide_eq_true_eq] <;>
    first
    | omega
    | exact absurd rfl hne
    | exact lt_or_gt_of_ne (fun h => hne (by rw [h]))

theorem listLtB_irrefl (l : List Value) : listLtB l l = false := by
  induction l with
  | nil => rfl
  | cons a as ih => simp [listLtB, valueLtB_irrefl, ih]

theorem listLtB_trans : ∀ {as bs cs : List Value},
    listLtB as bs = true → listLtB bs cs = true → listLtB as cs = true := by
  intro as
  induction as with
  | nil =>
    intro bs cs h1 h2
    cases cs with
    | nil =>
      cases bs with
      | nil => exact h1
      | cons b bs' => simp [listLtB] at h2
    | cons c cs' => rfl
  | cons a as' ih =>
    intro bs cs h1 h2
    cases bs with
    | nil => simp [listLtB] at h1
    | cons b bs' =>
      cases cs with
      | nil => simp [listLtB] at h2
      | cons c cs' =>
        simp only [listLtB, Bool.or_eq_true, Bool.and_eq_true,
          decide_eq_true_eq] at h1 h2 ⊢
        rcases h1 with h1 | ⟨hab, h1⟩
        · rcases h2 with h2 | ⟨hbc, h2⟩
          · exact Or.inl (valueLtB_trans h1 h2)
          · exact Or.inl (hbc ▸ h1)
        · rcases h2 with h2 | ⟨hbc, h2⟩
          · exact Or.inl (hab.symm ▸ h2)
          · exact Or.inr ⟨hab.trans hbc, ih h1 h2⟩

theorem listLtB_total : ∀ {as bs : List Value}, as.length = bs.length →
    as ≠ bs → listLtB as bs = true ∨ listLtB bs as = true := by
  intro as
  induction as with
  | nil =>
    intro bs hlen hne
    cases bs with
    | nil => exact absurd rfl hne
    | cons b bs' => simp at hlen
  | cons a as' ih =>
    intro bs hlen hne
    cases bs with
    | nil => simp at hlen
    | cons b bs' =>
      by_cases hab : a = b
      · subst hab
        have hne' : as' ≠ bs' := fun h => hne (by rw [h])
        have hlen' : as'.length = bs'.length := by simpa using hlen
        rcases ih hlen' hne' with h | h
        · exact Or.inl (by simp [listLtB, h])
        · exact Or.inr (by simp [listLtB, h])
      · rcases valueLtB_total hab with h | h
        · exact Or.inl (by simp [listLtB, h])
        · exact Or.inr (by simp [listLtB, h])

/-! ### Window rank lemmas -/

theorem beats_irrefl (df : DataFrame) (dg og : List String) (b : Bool)
    (i : Nat) : beats df dg og b i i = false := by
  cases b <;> simp [beats, listLtB_irrefl]

theorem beats_key {df : DataFrame} {dg og : List String} {b : Bool}
    {j i : Nat} (h : beats df dg og b j i = true) :
    keyOf df.columns dg (rowAt df j) = keyOf df.columns dg (rowAt df i) := by
  cases b <;>
    simp only [beats, Bool.and_eq_true, decide_eq_true_eq] at h <;>
    exact h.1

theorem beats_trans {df : DataFrame} {dg og : List String} {b : Bool}
    {j i l : Nat} (h1 : beats df dg og b j i = true)
    (h2 : beats df dg og b i l = true) : beats df dg og b j l = true := by
  cases b with
  | false =>
    simp only [beats, Bool.and_eq_true, Bool.or_eq_true, decide_eq_true_eq,
      Bool.false_eq_true, if_false] at h1 h2 ⊢
    obtain ⟨hk1, ho1⟩ := h1
    obtain ⟨hk2, ho2⟩ := h2
    refine ⟨hk1.trans hk2, ?_⟩
    rcases ho1 with ho1 | ⟨he1, hj1⟩
    · rcases ho2 with ho2 | ⟨he2, hj2⟩
      · exact Or.inl (listLtB_trans ho1 ho2)
      · exact Or.inl (he2 ▸ ho1)
    · rcases ho2 with ho2 | ⟨he2, hj2⟩
      · exact Or.inl (he1.symm ▸ ho2)
      · exact Or.inr ⟨he1.trans he2, hj1.trans hj2⟩
  | true =>
    simp only [beats, Bool.and_eq_true, Bool.or_eq_true, decide_eq_true_eq,
      if_true] at h1 h2 ⊢
    obtain ⟨hk1, ho1⟩ := h1
    obtain ⟨hk2, ho2⟩ := h2
    refine ⟨hk1.trans hk2, ?_⟩
    rcases ho1 with ho1 | ⟨he1, hj1⟩
    · rcases ho2 with ho2 | ⟨he2, hj2⟩
      · exact Or.inl (listLtB_trans ho2 ho1)
      · exact Or.inl (he2 ▸ ho1)
    · rcases ho2 with ho2 | ⟨he2, hj2⟩
      · exact Or.inl (he1.symm ▸ ho2)
      · exact Or.inr ⟨he1.trans he2, hj1.trans hj2⟩

theorem beats_total {df : DataFrame} {dg og : List String} {b : Bool}
    {j i : Nat} (hne : j ≠ i)
    (hkey : keyOf df.columns dg (rowAt df j)
      = keyOf df.columns dg (rowAt df i)) :
    beats df dg og b j i = true ∨ beats df dg og b i j = true := by
  by_cases heq : keyOf df.columns og (rowAt df j)
      = keyOf df.columns og (rowAt df i)
  · rcases Nat.lt_or_ge j i with h | h
    · exact Or.inl (by cases b <;> simp [beats, hkey, heq, h])
    · have hij : i < j := lt_of_le_of_ne h (Ne.symm hne)
      exact Or.inr (by cases b <;> simp [beats, hkey.symm, heq.symm, hij])
  · have hlen : (keyOf df.columns og (rowAt df j)).length
        = (keyOf df.columns og (rowAt df i)).length := by
      simp [keyOf]
    rcases listLtB_total hlen heq with h | h
    · cases b with
      | false => exact Or.inl (by simp [beats, hkey, h])
      | true => exact Or.inr (by simp [beats, hkey.symm, h])
    · cases b with
      | false => exact Or.inr (by simp [beats, hkey.symm, h])
      | true => exact Or.inl (by simp [beats, hkey, h])

theorem rankOf_eq_one_iff {df : DataFrame} {dg og : List String} {b : Bool}
    {i : Nat} :
    rankOf df dg og b i = 1
      ↔ ∀ j < df.rows.length, beats df dg og b j i = false := by
  rw [rankOf]
  constructor
  · intro h j hj
    have h0 : ((List.range df.rows.length).filter
        (fun j => beats df dg og b j i)).length = 0 := by omega
    rw [List.length_eq_zero, List.filter_eq_nil_iff] at h0
    have := h0 j (List.mem_range.mpr hj)
    simpa using this
  · intro h
    have hnil : (List.range df.rows.length).filter
        (fun j => beats df dg og b j i) = [] := by
      rw [List.filter_eq_nil_iff]
      intro a ha
      simp [h a (List.mem_range.mp ha)]
    rw [hnil]
    rfl

/-- In a nonempty finite index set, a transitive irreflexive relation has
an element nothing in the set relates into (the row that wins its
window partition). -/
theorem exists_unbeaten (R : Nat → Nat → Prop)
    (htrans : ∀ x y z, R x y → R y z → R x z) (hirr : ∀ x, ¬R x x) :
    ∀ l : List Nat, l ≠ [] → ∃ m ∈ l, ∀ j ∈ l, ¬R j m := by
  intro l
  induction l with
  | nil => intro h; exact absurd rfl h
  | cons a rest ih =>
    intro _
    rcases eq_or_ne rest [] with hr | hr
    · subst hr
      refine ⟨a, by simp, ?_⟩
      intro j hj
      simp at hj
      rw [hj]
      exact hirr a
    · obtain ⟨m, hm, hmin⟩ := ih hr
      by_cases ham : R a m
      · refine ⟨a, by simp, ?_⟩
        intro j hj hja
        rcases List.mem_cons.mp hj with hje | hj'
        · rw [hje] at hja
          exact hirr a hja
        · exact hmin j hj' (htrans j a m hja ham)
      · refine ⟨m, List.mem_cons_of_mem _ hm, ?_⟩
        intro j hj hjm
        rcases List.mem_cons.mp hj with hje | hj'
        · rw [hje] at hjm
          exact ham hjm
        · exact hmin j hj' hjm

/-- A duplicate-free list whose predicate holds at exactly one element has
a one-element filtering. -/
theorem length_filter_eq_one {l : List Nat} {p : Nat → Bool}
    (hnd : l.Nodup) {a : Nat} (ha : a ∈ l) (hpa : p a = true)
    (huniq : ∀ x ∈ l, p x = true → x = a) : (l.filter p).length = 1 := by
  induction l with
  | nil => simp at ha
  | cons x xs ih =>
    rw [List.nodup_cons] at hnd
    rcases List.mem_cons.mp ha with rfl | ha'
    · rw [List.filter_cons_of_pos hpa]
      have hnil : xs.filter p = [] := by
        rw [List.filter_eq_nil_iff]
        intro b hb hpb
        have hba := huniq b (List.mem_cons_of_mem _ hb) hpb
        subst hba
        exact hnd.1 hb
      rw [hnil]
      rfl
    · by_cases hpx : p x = true
      · have hxa : x = a := huniq x (by simp) hpx
        subst hxa
        exact absurd ha' hnd.1
      · rw [List.filter_cons_of_neg (by simpa using hpx)]
        exact ih hnd.2 ha' (fun y hy hpy =>
          huniq y (List.mem_cons_of_mem _ hy) hpy)

theorem eraseIdx_append_singleton {α : Type} (l : List α) (x : α) :
    (l ++ [x]).eraseIdx l.length = l := by
  induction l with
  | nil => rfl
  | cons y ys ih => simp [List.eraseIdx, ih]

/-- When the input has no "rank" column, the window/filter/drop body of
`remove_duplicates` keeps exactly the rows of window rank 1, in input
order, and restores the schema. -/
theorem dedupCore_eq (df : DataFrame) (dg og : List String) (b : Bool)
    (hwf : df.WF) (hrank : "rank" ∉ df.columns) :
    (dedupCore df dg og b).columns = df.columns ∧
    (dedupCore df dg og b).rows
      = ((List.range df.rows.length).filter
          (fun i => decide (rankOf df dg og b i = 1))).map (rowAt df) := by
  have hnone : colIdx? df.columns "rank" = none :=
    colIdx?_eq_none_iff.mpr hrank
  have hw1 : df.withColumnVals "rank"
      ((List.range df.rows.length).map
        (fun i => Value.vInt (rankOf df dg og b i)))
      = ⟨df.columns ++ ["rank"],
        (List.range df.rows.length).map
          (fun i => rowAt df i ++ [Value.vInt (rankOf df dg og b i)])⟩ := by
    simp only [DataFrame.withColumnVals, hnone]
    congr 1
    apply List.ext_getElem
    · simp
    · intro n h1 h2
      have hn : n < df.rows.length := by
        simpa using h2
      rw [List.getElem_zipWith, List.getElem_map, List.getElem_map,
        List.getElem_range, rowAt, List.getD_eq_getElem _ _ hn]
  have hfil : ((df.withColumnVals "rank"
        ((List.range df.rows.length).map
          (fun i => Value.vInt (rankOf df dg og b i)))).filterRows
      (fun cs r => decide (getCell cs r "rank" = Value.vInt 1)))
      = ⟨df.columns ++ ["rank"],
        ((List.range df.rows.length).filter
          (fun i => decide (rankOf df dg og b i = 1))).map
            (fun i => rowAt df i ++ [Value.vInt (rankOf df dg og b i)])⟩ := by
    rw [hw1, DataFrame.filterRows]
    congr 1
    rw [List.filter_map]
    congr 1
    apply List.filter_congr
    intro i hi
    have hilt : i < df.rows.length := List.mem_range.mp hi
    have hcell : getCell (df.columns ++ ["rank"])
        (rowAt df i ++ [Value.vInt (rankOf df dg og b i)]) "rank"
        = Value.vInt (rankOf df dg og b i) :=
      getCell_append_self hrank (rowAt_length hwf hilt)
    simp [Function.comp, hcell]
  refine ⟨?_, ?_⟩
  · rw [dedupCore, hfil]
    simp only [DataFrame.dropCol, colIdx?_append_singleton_self hrank]
    exact eraseIdx_append_singleton df.columns "rank"
  · rw [dedupCore, hfil]
    simp only [DataFrame.dropCol, colIdx?_append_singleton_self hrank]
    show (((List.range df.rows.length).filter
        (fun i => decide (rankOf df dg og b i = 1))).map
          (fun i => rowAt df i ++ [Value.vInt (rankOf df dg og b i)])).map
        (fun r => r.eraseIdx df.columns.length) = _
    rw [List.map_map]
    apply List.map_congr_left
    intro i hi
    have hilt : i < df.rows.length :=
      List.mem_range.mp (List.mem_filter.mp hi).1
    show (rowAt df i ++ [Value.vInt (rankOf df dg og b i)]).eraseIdx
        df.columns.length = rowAt df i
    rw [← rowAt_length hwf hilt]
    exact eraseIdx_append_singleton _ _

theorem survivor_exists (df : DataFrame) (dg og : List String) (b : Bool)
    (k : List Value)
    (hk : k ∈ df.rows.map (fun r => keyOf df.columns dg r)) :
    ∃ i, i < df.rows.length ∧ keyOf df.columns dg (rowAt df i) = k ∧
      rankOf df dg og b i = 1 := by
  obtain ⟨r, hr, hkr⟩ := List.mem_map.mp hk
  obtain ⟨i0, hi0, hri⟩ := List.mem_iff_getElem.mp hr
  have hki0 : keyOf df.columns dg (rowAt df i0) = k := by
    rw [rowAt, List.getD_eq_getElem _ _ hi0, hri]
    exact hkr
  have hi0P : i0 ∈ (List.range df.rows.length).filter
      (fun j => decide (keyOf df.columns dg (rowAt df j) = k)) :=
    List.mem_filter.mpr ⟨List.mem_range.mpr hi0, by simp [hki0]⟩
  obtain ⟨m, hmP, hmin⟩ := exists_unbeaten
    (fun x y => beats df dg og b x y = true)
    (fun x y z hxy hyz => beats_trans hxy hyz)
    (fun x hx => by simp [beats_irrefl] at hx)
    _ (List.ne_nil_of_mem hi0P)
  obtain ⟨hmR, hmK⟩ := List.mem_filter.mp hmP
  have hmlt : m < df.rows.length := List.mem_range.mp hmR
  have hmk : keyOf df.columns dg (rowAt df m) = k := of_decide_eq_true hmK
  refine ⟨m, hmlt, hmk, ?_⟩
  rw [rankOf_eq_one_iff]
  intro j hj
  cases hb : beats df dg og b j m with
  | false => rfl
  | true =>
    exfalso
    have hkey := beats_key hb
    have hjP : j ∈ (List.range df.rows.length).filter
        (fun j => decide (keyOf df.columns dg (rowAt df j) = k)) :=
      List.mem_filter.mpr ⟨List.mem_range.mpr hj, by simp [hkey.trans hmk]⟩
    exact hmin j hjP hb

theorem survivor_unique {df : DataFrame} {dg og : List String} {b : Bool}
    {i1 i2 : Nat} (h1 : i1 < df.rows.length) (h2 : i2 < df.rows.length)
    (hk : keyOf df.columns dg (rowAt df i1)
      = keyOf df.columns dg (rowAt df i2))
    (hr1 : rankOf df dg og b i1 = 1) (hr2 : rankOf df dg og b i2 = 1) :
    i1 = i2 := by
  by_contra hne
  rcases beats_total hne hk with h | h
  · have hf := (rankOf_eq_one_iff.mp hr2) i1 h1
    rw [hf] at h
    exact absurd h (by simp)
  · have hf := (rankOf_eq_one_iff.mp hr1) i2 h2
    rw [hf] at h
    exact absurd h (by simp)

theorem map_getD_range {α : Type} (l : List α) (d : α) :
    (List.range l.length).map (fun i => l.getD i d) = l := by
  apply List.ext_getElem
  · simp
  · intro n h1 h2
    rw [List.getElem_map, List.getElem_range, List.getD_eq_getElem _ _ h2]

theorem dataFrame_ext {df1 df2 : DataFrame}
    (hc : df1.columns = df2.columns) (hr : df1.rows = df2.rows) :
    df1 = df2 := by
  cases df1
  cases df2
  simp_all

theorem remove_duplicates_ok (df : DataFrame) (dg og : List String)
    (b : Bool) (hog : og ≠ []) (hdgc : ∀ c ∈ dg, c ∈ df.columns)
    (hogc : ∀ c ∈ og, c ∈ df.columns) :
    remove_duplicates df dg og b = .ok (dedupCore df dg og b) := by
  have hcond : ((dg ++ og).all
      (fun c => (colIdx? df.columns c).isSome)) = true := by
    rw [List.all_eq_true]
    intro c hc
    rcases List.mem_append.mp hc with h | h
    · exact colIdx?_isSome_iff.mpr (hdgc c h)
    · exact colIdx?_isSome_iff.mpr (hogc c h)
  rw [remove_duplicates, if_pos ⟨hog, hcond⟩]

/-! ### Claim C1: remove_duplicates deduplication -/

/-- C1 counterexample: the claim fails as stated when the input already
has a column named "rank" (the function's working column).  Here rows
are partitioned and ordered by the existing "rank" column: the partition
key [5] occurs in the input and the call succeeds, yet no output row
carries that key — the "rank" column was overwritten by the window rank
and then dropped. -/
theorem remove_duplicates_count_cex :
    remove_duplicates ⟨["rank"], [[.vInt 5]]⟩ ["rank"] ["rank"] false
      = .ok ⟨[], [[]]⟩ ∧
    [Value.vInt 5] ∈ (⟨["rank"], [[.vInt 5]]⟩ : DataFrame).rows.map
      (fun r => keyOf ["rank"] ["rank"] r) ∧
    ((⟨[], [[]]⟩ : DataFrame).rows.filter
      (fun r => decide (keyOf ([] : List String) ["rank"] r
        = [Value.vInt 5]))).length = 0 := by
  refine ⟨rfl, by decide, by decide⟩

/-- C1 (amended): for every well-formed input DataFrame without a column
named "rank", every non-empty dedup grain of resolvable columns and
every non-empty order grain of resolvable columns (an empty order grain
makes the engine reject the unordered `row_number` window),
`remove_duplicates` succeeds, the output has at most as many rows as the
input, and every partition key present in the input keeps exactly one row
in the output. -/
theorem remove_duplicates_count_spec (df : DataFrame)
    (dg og : List String) (b : Bool) (hwf : df.WF)
    (hrank : "rank" ∉ df.columns) (hdg : dg ≠ []) (hog : og ≠ [])
    (hdgc : ∀ c ∈ dg, c ∈ df.columns) (hogc : ∀ c ∈ og, c ∈ df.columns) :
    remove_duplicates df dg og b = .ok (dedupCore df dg og b) ∧
    (dedupCore df dg og b).rows.length ≤ df.rows.length ∧
    ∀ k ∈ df.rows.map (fun r => keyOf df.columns dg r),
      ((dedupCore df dg og b).rows.filter
        (fun r => decide (keyOf (dedupCore df dg og b).columns dg r
          = k))).length = 1 := by
  obtain ⟨hcols, hrows⟩ := dedupCore_eq df dg og b hwf hrank
  refine ⟨remove_duplicates_ok df dg og b hog hdgc hogc, ?_, ?_⟩
  · rw [hrows, List.length_map]
    calc ((List.range df.rows.length).filter
          (fun i => decide (rankOf df dg og b i = 1))).length
        ≤ (List.range df.rows.length).length := List.length_filter_le _ _
      _ = df.rows.length := List.length_range _
  · intro k hk
    rw [hrows, hcols, List.filter_map, List.length_map, List.filter_filter]
    obtain ⟨m, hm, hmk, hmr⟩ := survivor_exists df dg og b k hk
    apply length_filter_eq_one (List.nodup_range _)
      (List.mem_range.mpr hm)
    · simp [Function.comp, hmk, hmr]
    · intro x hx hpx
      simp only [Function.comp, Bool.and_eq_true, decide_eq_true_eq] at hpx
      exact survivor_unique (List.mem_range.mp hx) hm
        (hpx.1.trans hmk.symm) hpx.2 hmr

/-- C1 witness: on a concrete three-row DataFrame with two rows sharing
partition key [1], the call succeeds, the output is no longer than the
input, and each of the keys [1] and [2] keeps exactly one row. -/
theorem remove_duplicates_count_spec_witness :
    remove_duplicates
        ⟨["a", "v"], [[.vInt 1, .vInt 9], [.vInt 1, .vInt 3],
          [.vInt 2, .vInt 7]]⟩ ["a"] ["v"] false
      = .ok (dedupCore
        ⟨["a", "v"], [[.vInt 1, .vInt 9], [.vInt 1, .vInt 3],
          [.vInt 2, .vInt 7]]⟩ ["a"] ["v"] false) ∧
    (dedupCore ⟨["a", "v"], [[.vInt 1, .vInt 9], [.vInt 1, .vInt 3],
        [.vInt 2, .vInt 7]]⟩ ["a"] ["v"] false).rows.length ≤ 3 ∧
    ∀ k ∈ (⟨["a", "v"], [[.vInt 1, .vInt 9], [.vInt 1, .vInt 3],
        [.vInt 2, .vInt 7]]⟩ : DataFrame).rows.map
          (fun r => keyOf ["a", "v"] ["a"] r),
      ((dedupCore ⟨["a", "v"], [[.vInt 1, .vInt 9], [.vInt 1, .vInt 3],
          [.vInt 2, .vInt 7]]⟩ ["a"] ["v"] false).rows.filter
        (fun r => decide (keyOf (dedupCore ⟨["a", "v"],
            [[.vInt 1, .vInt 9], [.vInt 1, .vInt 3], [.vInt 2, .vInt 7]]⟩
          ["a"] ["v"] false).columns ["a"] r = k))).length = 1 :=
  remove_duplicates_count_spec
    ⟨["a", "v"], [[.vInt 1, .vInt 9], [.vInt 1, .vInt 3],
      [.vInt 2, .vInt 7]]⟩ ["a"] ["v"] false
    (by unfold DataFrame.WF; decide) (by decide) (by decide) (by decide)
    (by decide) (by decide)

/-! ### Claim C2: remove_duplicates idempotence -/

/-- C2 counterexample: the claim fails as stated when the input already
has a column named "rank": with dedup grain ["rank"], the first call
succeeds (partitioning by the old "rank" values) but drops the "rank"
column, so re-running on its own output fails to resolve the grain and
returns an analysis error instead of the same rows. -/
theorem remove_duplicates_idem_cex :
    remove_duplicates
        ⟨["a", "rank"], [[.vInt 1, .vInt 10], [.vInt 2, .vInt 20]]⟩
        ["rank"] ["a"] false = .ok ⟨["a"], [[.vInt 1], [.vInt 2]]⟩ ∧
    remove_duplicates ⟨["a"], [[.vInt 1], [.vInt 2]]⟩ ["rank"] ["a"] false
      = .error "AnalysisException" :=
  ⟨rfl, rfl⟩

theorem dedupCore_idem (df : DataFrame) (dg og : List String) (b : Bool)
    (hwf : df.WF) (hrank : "rank" ∉ df.columns) :
    dedupCore (dedupCore df dg og b) dg og b = dedupCore df dg og b := by
  obtain ⟨hcols, hrows⟩ := dedupCore_eq df dg og b hwf hrank
  set D := dedupCore df dg og b with hD
  set s := (List.range df.rows.length).filter
    (fun i => decide (rankOf df dg og b i = 1)) with hs
  have hsnd : s.Nodup := (List.nodup_range _).filter _
  have hsltD : ∀ j, j < s.length → s.getD j 0 < df.rows.length := by
    intro j hj
    rw [List.getD_eq_getElem _ _ hj]
    exact List.mem_range.mp (List.mem_filter.mp (List.getElem_mem hj)).1
  have hsrankD : ∀ j, j < s.length →
      rankOf df dg og b (s.getD j 0) = 1 := by
    intro j hj
    rw [List.getD_eq_getElem _ _ hj]
    exact of_decide_eq_true (List.mem_filter.mp (List.getElem_mem hj)).2
  have hDwf : D.WF := by
    intro r hr
    rw [hrows] at hr
    obtain ⟨i, hi, rfl⟩ := List.mem_map.mp hr
    rw [hcols]
    exact rowAt_length hwf (List.mem_range.mp (List.mem_filter.mp hi).1)
  have hDrank : "rank" ∉ D.columns := by
    rw [hcols]
    exact hrank
  have hDlen : D.rows.length = s.length := by
    rw [hrows, List.length_map]
  have hrowD : ∀ j, j < s.length → rowAt D j = rowAt df (s.getD j 0) := by
    intro j hj
    rw [rowAt, hrows]
    exact getD_map_of_lt hj _ _
  have hallone : ∀ i, i < D.rows.length → rankOf D dg og b i = 1 := by
    intro i hi
    rw [rankOf_eq_one_iff]
    intro j hj
    cases hb : beats D dg og b j i with
    | false => rfl
    | true =>
      exfalso
      rw [hDlen] at hi hj
      have hkey := beats_key hb
      rw [hrowD j hj, hrowD i hi, hcols] at hkey
      have heq : s.getD j 0 = s.getD i 0 :=
        survivor_unique (hsltD j hj) (hsltD i hi) hkey
          (hsrankD j hj) (hsrankD i hi)
      have hji : j = i := by
        rw [List.getD_eq_getElem _ _ hj, List.getD_eq_getElem _ _ hi] at heq
        exact (List.Nodup.getElem_inj_iff hsnd).mp heq
      simp [hji, beats_irrefl] at hb
  obtain ⟨hc2, hr2⟩ := dedupCore_eq D dg og b hDwf hDrank
  apply dataFrame_ext
  · rw [hc2]
  · rw [hr2]
    have hfilt : (List.range D.rows.length).filter
        (fun i => decide (rankOf D dg og b i = 1))
        = List.range D.rows.length := by
      rw [List.filter_eq_self]
      intro a ha
      simp [hallone a (List.mem_range.mp ha)]
    rw [hfilt]
    show (List.range D.rows.length).map (fun i => D.rows.getD i []) = D.rows
    exact map_getD_range D.rows []

/-- C2 (amended): provided the input DataFrame is well-formed and has no
column named "rank", the order grain is non-empty (the engine rejects an
unordered `row_number` window) and the grain columns resolve,
`remove_duplicates` is idempotent: re-running it with the same arguments
on its own output returns exactly that output. -/
theorem remove_duplicates_idem_spec (df : DataFrame) (dg og : List String)
    (b : Bool) (hwf : df.WF) (hrank : "rank" ∉ df.columns) (hog : og ≠ [])
    (hdgc : ∀ c ∈ dg, c ∈ df.columns) (hogc : ∀ c ∈ og, c ∈ df.columns) :
    remove_duplicates df dg og b = .ok (dedupCore df dg og b) ∧
    remove_duplicates (dedupCore df dg og b) dg og b
      = .ok (dedupCore df dg og b) := by
  obtain ⟨hcols, hrows⟩ := dedupCore_eq df dg og b hwf hrank
  refine ⟨remove_duplicates_ok df dg og b hog hdgc hogc, ?_⟩
  have hdgc2 : ∀ c ∈ dg, c ∈ (dedupCore df dg og b).columns := by
    rw [hcols]
    exact hdgc
  have hogc2 : ∀ c ∈ og, c ∈ (dedupCore df dg og b).columns := by
    rw [hcols]
    exact hogc
  rw [remove_duplicates_ok _ dg og b hog hdgc2 hogc2,
    dedupCore_idem df dg og b hwf hrank]

/-- C2 witness: on a concrete two-row DataFrame with duplicate keys, the
first call succeeds and a second call on its output returns that output
unchanged. -/
theorem remove_duplicates_idem_spec_witness :
    remove_duplicates ⟨["a", "v"], [[.vInt 1, .vInt 9], [.vInt 1, .vInt 3]]⟩
        ["a"] ["v"] false
      = .ok (dedupCore
          ⟨["a", "v"], [[.vInt 1, .vInt 9], [.vInt 1, .vInt 3]]⟩
          ["a"] ["v"] false) ∧
    remove_duplicates (dedupCore
        ⟨["a", "v"], [[.vInt 1, .vInt 9], [.vInt 1, .vInt 3]]⟩
        ["a"] ["v"] false) ["a"] ["v"] false
      = .ok (dedupCore
          ⟨["a", "v"], [[.vInt 1, .vInt 9], [.vInt 1, .vInt 3]]⟩
          ["a"] ["v"] false) :=
  remove_duplicates_idem_spec
    ⟨["a", "v"], [[.vInt 1, .vInt 9], [.vInt 1, .vInt 3]]⟩ ["a"] ["v"]
    false (by unfold DataFrame.WF; decide) (by decide) (by decide)
    (by decide) (by decide)

/-! ### Claim C10: the working column "rank" -/

theorem eraseIdx_colIdx_eq_erase {cols : List String} {c : String} {j : Nat}
    (hj : colIdx? cols c = some j) : cols.eraseIdx j = cols.erase c := by
  induction cols generalizing j with
  | nil => simp [colIdx?] at hj
  | cons x xs ih =>
    rw [colIdx?] at hj
    by_cases hx : x = c
    · rw [if_pos hx] at hj
      simp at hj
      rw [← hj]
      simp [List.eraseIdx, List.erase_cons, hx]
    · rw [if_neg hx, Option.map_eq_some'] at hj
      obtain ⟨j', hj', rfl⟩ := hj
      simp [List.eraseIdx, List.erase_cons, hx, ih hj']

theorem dedupCore_columns_of_mem {df : DataFrame} {dg og : List String}
    {b : Bool} {j : Nat} (hj : colIdx? df.columns "rank" = some j) :
    (dedupCore df dg og b).columns = df.columns.eraseIdx j := by
  simp only [dedupCore, DataFrame.withColumnVals, hj, DataFrame.filterRows,
    DataFrame.dropCol]

/-- C10: `remove_duplicates` uses a working column literally named "rank"
that it adds (here: overwrites) and then drops: whenever the call
completes (non-empty order grain, resolvable grain columns) on an input
that already has a "rank" column, that column is absent from the output,
whose schema is the input's with "rank" erased — so the input's columns
are not all preserved. -/
theorem remove_duplicates_rank_clobber (df : DataFrame)
    (dg og : List String) (b : Bool) (hcols : df.columns.Nodup)
    (hr : "rank" ∈ df.columns) (hog : og ≠ [])
    (hdgc : ∀ c ∈ dg, c ∈ df.columns)
    (hogc : ∀ c ∈ og, c ∈ df.columns) :
    ∃ out, remove_duplicates df dg og b = .ok out ∧
      out.columns = df.columns.erase "rank" ∧
      "rank" ∉ out.columns ∧ out.columns ≠ df.columns := by
  obtain ⟨j, hj⟩ := Option.isSome_iff_exists.mp (colIdx?_isSome_iff.mpr hr)
  have hout : (dedupCore df dg og b).columns = df.columns.erase "rank" :=
    (dedupCore_columns_of_mem hj).trans (eraseIdx_colIdx_eq_erase hj)
  have hnotmem : "rank" ∉ (dedupCore df dg og b).columns := by
    rw [hout]
    intro hmem
    exact ((List.Nodup.mem_erase_iff hcols).mp hmem).1 rfl
  refine ⟨dedupCore df dg og b,
    remove_duplicates_ok df dg og b hog hdgc hogc, hout, hnotmem, ?_⟩
  intro hceq
  rw [hceq] at hnotmem
  exact hnotmem hr

/-- C10 witness: on a concrete DataFrame with columns ["a", "rank"],
partitioned and ordered by "a", the output schema is ["a"]; the "rank"
column is gone. -/
theorem remove_duplicates_rank_clobber_witness :
    ∃ out, remove_duplicates ⟨["a", "rank"], [[.vInt 1, .vInt 2]]⟩
        ["a"] ["a"] false = .ok out ∧
      out.columns = ["a", "rank"].erase "rank" ∧
      "rank" ∉ out.columns ∧ out.columns ≠ ["a", "rank"] :=
  remove_duplicates_rank_clobber ⟨["a", "rank"], [[.vInt 1, .vInt 2]]⟩
    ["a"] ["a"] false (by decide) (by decide) (by decide) (by decide)
    (by decide)

/-! ### Claim C9: export_to_csv -/

theorem filter_dir_self_nil (l : List (String × String × List String))
    (d : String) :
    (l.filter (fun e => e.1 ≠ d)).filter (fun e => e.1 = d) = [] := by
  rw [List.filter_filter, List.filter_eq_nil_iff]
  intro a ha
  simp

/-- C9: after `export_to_csv` runs, exactly one file exists at the address
(output_path, file_name) — the CSV of the DataFrame, whose first line is
the header of column names — and the staging directory
`output_path + "/temp_output_folder"` is gone, along with every file in
it.  (The file name is assumed distinct from the staging folder's name;
with that name the real `os.rename` would fail and the export would not
return successfully.) -/
theorem export_to_csv_spec (df : DataFrame) (output_path file_name : String)
    (fs : FS) (hfn : file_name ≠ "temp_output_folder") :
    ((export_to_csv df output_path file_name fs).files.filter
      (fun e => decide (e.1 = output_path ∧ e.2.1 = file_name))).length
      = 1 ∧
    (output_path, file_name, csvLines df)
      ∈ (export_to_csv df output_path file_name fs).files ∧
    (csvLines df).head? = some (csvLine df.columns) ∧
    output_path ++ "/temp_output_folder"
      ∉ (export_to_csv df output_path file_name fs).dirs ∧
    ∀ e ∈ (export_to_csv df output_path file_name fs).files,
      e.1 ≠ output_path ++ "/temp_output_folder" := by
  set temp := output_path ++ "/temp_output_folder" with htemp
  have hopt : output_path ≠ temp := by
    intro h
    have hlen := congrArg String.length h
    rw [htemp, String.length_append] at hlen
    have h19 : ("/temp_output_folder" : String).length = 19 := rfl
    omega
  have hfind : (listdir (sparkWriteCsv df temp fs) temp).find?
      (fun f => strEndsWith f ".csv") = some "part-00000.csv" := by
    rw [listdir, sparkWriteCsv]
    have h0 : List.filter (fun e => e.1 = temp)
        ((temp, "part-00000.csv", csvLines df) ::
          (temp, "_SUCCESS", ([] : List String)) ::
          fs.files.filter (fun e => e.1 ≠ temp))
        = [(temp, "part-00000.csv", csvLines df),
          (temp, "_SUCCESS", ([] : List String))] := by
      rw [List.filter_cons, if_pos (by simp), List.filter_cons,
        if_pos (by simp), filter_dir_self_nil]
    rw [h0]
    rfl
  have hchain : export_to_csv df output_path file_name fs
      = rmtree (osRename (sparkWriteCsv df temp fs) temp "part-00000.csv"
          output_path file_name) temp := by
    simp only [export_to_csv, ← htemp, hfind]
  have hcontent : ((sparkWriteCsv df temp fs).files.find?
      (fun e => e.1 = temp && e.2.1 = "part-00000.csv"))
      = some (temp, "part-00000.csv", csvLines df) := by
    rw [sparkWriteCsv]
    show List.find? _ ((temp, "part-00000.csv", csvLines df) :: _)
      = some (temp, "part-00000.csv", csvLines df)
    simp [List.find?_cons]
  have hfiles : (export_to_csv df output_path file_name fs).files
      = ((output_path, file_name, csvLines df) ::
          (sparkWriteCsv df temp fs).files.filter (fun e =>
            ¬(e.1 = temp ∧ e.2.1 = "part-00000.csv") ∧
            ¬(e.1 = output_path ∧ e.2.1 = file_name))).filter
          (fun e => e.1 ≠ temp) := by
    rw [hchain]
    simp only [rmtree, osRename, hcontent, Option.map_some',
      Option.getD_some]
  have hfiles2 : (export_to_csv df output_path file_name fs).files
      = (output_path, file_name, csvLines df) ::
        ((sparkWriteCsv df temp fs).files.filter (fun e =>
            ¬(e.1 = temp ∧ e.2.1 = "part-00000.csv") ∧
            ¬(e.1 = output_path ∧ e.2.1 = file_name))).filter
          (fun e => e.1 ≠ temp) := by
    rw [hfiles, List.filter_cons]
    simp [hopt]
  refine ⟨?_, ?_, rfl, ?_, ?_⟩
  · rw [hfiles2, List.filter_cons, if_pos (by simp)]
    have hnil : (((sparkWriteCsv df temp fs).files.filter (fun e =>
          ¬(e.1 = temp ∧ e.2.1 = "part-00000.csv") ∧
          ¬(e.1 = output_path ∧ e.2.1 = file_name))).filter
        (fun e => e.1 ≠ temp)).filter
        (fun e => decide (e.1 = output_path ∧ e.2.1 = file_name)) = [] := by
      rw [List.filter_eq_nil_iff]
      intro e he
      have he2 := (List.mem_filter.mp (List.mem_filter.mp he).1).2
      simp only [decide_eq_true_eq] at he2 ⊢
      exact he2.2
    rw [hnil]
    rfl
  · rw [hfiles2]
    exact List.mem_cons_self _ _
  · rw [hchain, rmtree]
    intro hmem
    have := (List.mem_filter.mp hmem).2
    simp at this
  · intro e he
    rw [hfiles2] at he
    rcases List.mem_cons.mp he with he0 | he'
    · rw [he0]
      exact hopt
    · have := (List.mem_filter.mp he').2
      simpa using this

/-- C9 witness: exporting a concrete one-row DataFrame into an empty file
system leaves exactly one CSV at out/jobs.csv with the header line, and
no staging directory. -/
theorem export_to_csv_spec_witness :
    ((export_to_csv ⟨["x"], [[.vInt 1]]⟩ "out" "jobs.csv"
        ⟨[], []⟩).files.filter
      (fun e => decide (e.1 = "out" ∧ e.2.1 = "jobs.csv"))).length = 1 ∧
    ("out", "jobs.csv", csvLines ⟨["x"], [[.vInt 1]]⟩)
      ∈ (export_to_csv ⟨["x"], [[.vInt 1]]⟩ "out" "jobs.csv"
        ⟨[], []⟩).files ∧
    (csvLines ⟨["x"], [[.vInt 1]]⟩).head?
      = some (csvLine ["x"]) ∧
    "out" ++ "/temp_output_folder"
      ∉ (export_to_csv ⟨["x"], [[.vInt 1]]⟩ "out" "jobs.csv"
        ⟨[], []⟩).dirs ∧
    ∀ e ∈ (export_to_csv ⟨["x"], [[.vInt 1]]⟩ "out" "jobs.csv"
        ⟨[], []⟩).files,
      e.1 ≠ "out" ++ "/temp_output_folder" :=
  export_to_csv_spec ⟨["x"], [[.vInt 1]]⟩ "out" "jobs.csv" ⟨[], []⟩
    (by decide)
